import Mathlib

/-!
Verification of the treecompare gatekeeper/router pipeline.

Shallow embedding of the Python sources:
  scripts/fasta.py, scripts/validate_config.py, scripts/sanitize_inputs.py,
  scripts/write_mrbayes_nexus.py, scripts/dispatcher.py.

Modelling conventions, used throughout:
* Python strings are Lean `String`; `str.strip`, `str.lower`, `str.upper` are
  modelled over ASCII (`pyStrip`, `pyLower`, `pyUpper`); Unicode-only
  behaviour of those Python methods is outside the model.
* YAML scalars/collections are the inductive `YVal`; Python floats are
  modelled by `Rat` (the pipeline only ever coerces and compares them).
* The filesystem is an explicit environment: a map from path to the list of
  text lines of the file (`none` = the file does not exist).  Writing a file
  is modelled by returning the written value.
* `sys.exit` / uncaught Python exceptions are the `Except` error branch.
-/

/-! ## Small Python-flavoured string helpers -/

def isPySpace (c : Char) : Bool :=
  c = ' ' || c = '\t' || c = '\n' || c = '\r' || c = '\x0b' || c = '\x0c'

def pyStripChars (l : List Char) : List Char :=
  ((l.dropWhile isPySpace).reverse.dropWhile isPySpace).reverse

/-- Python `str.strip()` (ASCII whitespace). -/
def pyStrip (s : String) : String := ⟨pyStripChars s.data⟩

/-- Python `str.lower()` (ASCII). -/
def pyLower (s : String) : String := ⟨s.data.map Char.toLower⟩

/-- Python `str.upper()` (ASCII). -/
def pyUpper (s : String) : String := ⟨s.data.map Char.toUpper⟩

/-- Substring test, Python's `pat in s`. -/
def listContains (pat : List Char) : List Char → Bool
  | [] => pat.isEmpty
  | c :: cs => pat.isPrefixOf (c :: cs) || listContains pat cs

def strContains (s pat : String) : Bool := listContains pat.data s.data

/-- Python `str.replace` on char lists; the fuel argument (any value
`≥ length of the subject`) only forces structural recursion. -/
def replaceChars (pat rep : List Char) : Nat → List Char → List Char
  | _, [] => []
  | 0, l => l
  | fuel + 1, c :: cs =>
    if pat ≠ [] ∧ pat.isPrefixOf (c :: cs) then
      rep ++ replaceChars pat rep fuel ((c :: cs).drop pat.length)
    else
      c :: replaceChars pat rep fuel cs

/-- Python `s.replace(pat, rep)` (as used in the sources, with `pat ≠ ""`). -/
def strReplace (s pat rep : String) : String :=
  ⟨replaceChars pat.data rep.data (s.data.length + 1) s.data⟩

/-- Decimal digits of a natural number; fuelled for structural recursion. -/
def natCharsF : Nat → Nat → List Char
  | 0, _ => []
  | f + 1, n =>
    if n < 10 then [Nat.digitChar n]
    else natCharsF f (n / 10) ++ [Nat.digitChar (n % 10)]

/-- Python `str(n)` for a natural number. -/
def natStr (n : Nat) : String := ⟨natCharsF (n + 1) n⟩

/-- Python `str(n)` for an integer. -/
def intStr (n : Int) : String :=
  if n < 0 then "-" ++ natStr n.natAbs else natStr n.natAbs

/-- Python `", ".join`-style joining. -/
def joinSep (sep : String) : List String → String
  | [] => ""
  | [s] => s
  | s :: rest => s ++ sep ++ joinSep sep rest

/-- First-occurrence-order deduplication (Python `dict` / `Counter` key order). -/
def firstDedupAux [DecidableEq α] (seen : List α) : List α → List α
  | [] => []
  | a :: l => if a ∈ seen then firstDedupAux seen l else a :: firstDedupAux (a :: seen) l

def firstDedup [DecidableEq α] (l : List α) : List α := firstDedupAux [] l

/-- Insertion sort (used for Python `sorted` on small string/char sets). -/
def insertLe [LE α] [DecidableRel (α := α) (· ≤ ·)] (a : α) : List α → List α
  | [] => [a]
  | b :: l => if a ≤ b then a :: b :: l else b :: insertLe a l

def sortLe [LE α] [DecidableRel (α := α) (· ≤ ·)] : List α → List α
  | [] => []
  | a :: l => insertLe a (sortLe l)

/-! ## YAML-ish value model -/

/-- Comparison of rationals by integer cross-multiplication (denominators are
positive); used instead of `Rat.lt` so that concrete runs reduce in the
kernel. -/
def ratLt (a b : Rat) : Bool := a.num * (b.den : Int) < b.num * (a.den : Int)

inductive YVal where
  | nil
  | bool (b : Bool)
  | int (n : Int)
  | float (q : Rat)
  | str (s : String)
  | list (xs : List YVal)
  | map (entries : List (String × YVal))

/-- First-occurrence association lookup (Python `dict.get` / `d[k]`). -/
def mapLookup (m : List (String × YVal)) (k : String) : Option YVal :=
  match m with
  | [] => none
  | (k', v) :: rest => if k' = k then some v else mapLookup rest k

/-- Replace every pair keyed `k` by `(k, v)` (lists from YAML documents
never repeat a key, so this is the single-slot in-place update). -/
def mapUpd (k : String) (v : YVal) : List (String × YVal) → List (String × YVal)
  | [] => []
  | (k1, v1) :: rest =>
    if k1 = k then (k, v) :: mapUpd k v rest else (k1, v1) :: mapUpd k v rest

/-- Python `d[k] = v`: replace the value of `k` in place, else append. -/
def mapSet (m : List (String × YVal)) (k : String) (v : YVal) : List (String × YVal) :=
  if (mapLookup m k).isSome then mapUpd k v m else m ++ [(k, v)]

def mapGetD (m : List (String × YVal)) (k : String) (d : YVal) : YVal :=
  (mapLookup m k).getD d

/-- Python truthiness of a YAML value. -/
def yFalsy : YVal → Bool
  | .nil => true
  | .bool b => !b
  | .int n => n = 0
  | .float q => q.num = 0
  | .str s => s.isEmpty
  | .list xs => xs.isEmpty
  | .map m => m.isEmpty

/-- Python `x or y`. -/
def pyOr (x y : YVal) : YVal := if yFalsy x then y else x

/-- Python `str(x)` as it appears inside the pipeline's f-strings.  Floats
(`Rat` in the model) are rendered in decimal when the denominator divides
10^6 (all floats the pipeline itself introduces), `num/den` otherwise. -/
def ratRepr (q : Rat) : String :=
  if q.den = 1 then intStr q.num
  else
    let sgn := if q.num < 0 then "-" else ""
    let n := q.num.natAbs
    let go (k : Nat) : Option String :=
      let p := 10 ^ k
      if p % q.den = 0 then
        let scaled := n * (p / q.den)
        some (sgn ++ natStr (scaled / p) ++ "." ++
          (let frac := natStr (scaled % p)
           ⟨List.replicate (k - frac.length) '0'⟩ ++ frac))
      else none
    ((go 1).orElse (fun _ => (go 2).orElse (fun _ => (go 3).orElse (fun _ =>
      (go 4).orElse (fun _ => (go 5).orElse (fun _ => go 6)))))).getD
      (intStr q.num ++ "/" ++ natStr q.den)

def pyStrOf : YVal → String
  | .nil => "None"
  | .bool b => if b then "True" else "False"
  | .int n => intStr n
  | .float q => ratRepr q
  | .str s => s
  | .list _ => "[...]"
  | .map _ => "{...}"

/-- Decimal-digit accumulator for number parsing. -/
def digitsVal (ds : List Char) : Option Nat :=
  if ds ≠ [] ∧ ds.all Char.isDigit then
    some (ds.foldl (fun acc c => acc * 10 + (c.toNat - '0'.toNat)) 0)
  else none

/-- Python `int(x)`; `none` models the `ValueError`/`TypeError` branch. -/
def pyIntOf : YVal → Option Int
  | .int n => some n
  | .bool b => some (if b then 1 else 0)
  | .float q => some (q.num.tdiv (q.den : Int))
  | .str s =>
    let t := pyStripChars s.data
    (match t with
     | '-' :: rest => (digitsVal rest).map (fun n => -(n : Int))
     | '+' :: rest => (digitsVal rest).map (fun n => (n : Int))
     | _ => (digitsVal t).map (fun n => (n : Int)))
  | _ => none

/-- Python `float(x)`; string parsing covers plain decimal literals. -/
def pyFloatOf : YVal → Option Rat
  | .int n => some (mkRat n 1)
  | .bool b => some (if b then mkRat 1 1 else mkRat 0 1)
  | .float q => some q
  | .str s =>
    let t := pyStripChars s.data
    let core : List Char → Option Rat := fun ds =>
      match ds.splitOn '.' with
      | [w] => (digitsVal w).map (fun n => mkRat n 1)
      | [w, f] =>
        match digitsVal w, digitsVal f with
        | some wn, some fn => some (mkRat (wn * 10 ^ f.length + fn) (10 ^ f.length))
        | _, _ => none
      | _ => none
    (match t with
     | '-' :: rest => (core rest).map (fun q => -q)
     | '+' :: rest => core rest
     | _ => core t)
  | _ => none

example : pyStrip "  ab c \t" = "ab c" := by decide
example : strReplace "lset nst=1 rates=equal;" "rates=equal" "rates=gamma" =
    "lset nst=1 rates=gamma;" := by decide
example : natStr 120 = "120" := by decide
example : ratRepr (mkRat 1 10) = "0.1" := by decide
example : pyIntOf (.str " 42 ") = some 42 := by decide
example : pyFloatOf (.str "0.25") = some (mkRat 1 4) := by decide
example : ratLt (mkRat 0 1) (mkRat 1 10) ∧ ratLt (mkRat 1 10) (mkRat 1 1) := by decide
example : pyFloatOf (.str "-0.5") = some (-(mkRat 1 2)) := by decide

def exceptIsError : Except ε α → Bool
  | .error _ => true
  | .ok _ => false

/-! ## scripts/fasta.py

`read_fasta` parses a list of text lines (each line given without its
trailing newline, as produced by `line.rstrip("\n")` in the source); the
error branch carries the `FastaError` message. -/

/-- The per-record flush in `read_fasta`: join the buffered sequence lines,
drop blanks/tabs (`strip_whitespace`), and reject an empty sequence. -/
def fastaFlush (strip : Bool) (name : String) (buf : List String) :
    Except String (String × String) :=
  let seq0 := joinSep "" buf
  let seq := if strip then ⟨seq0.data.filter (fun c => !(c = ' ' || c = '\t'))⟩ else seq0
  if seq.isEmpty then .error ("Empty sequence for header '" ++ name ++ "'")
  else .ok (name, seq)

/-- The line loop of `read_fasta` (line counter `i` starts at 1). -/
def read_fasta_go (strip : Bool) :
    List String → Nat → Option String → List String → List (String × String) →
    Except String (List (String × String))
  | [], _, name, buf, acc =>
    (match name with
     | some nm =>
       (match fastaFlush strip nm buf with
        | .error e => .error e
        | .ok r =>
          if (acc ++ [r]).isEmpty then .error "No sequences found in FASTA."
          else .ok (acc ++ [r]))
     | none =>
       if acc.isEmpty then .error "No sequences found in FASTA." else .ok acc)
  | s :: rest, i, name, buf, acc =>
    if s.isEmpty then read_fasta_go strip rest (i + 1) name buf acc
    else if s.data.head? = some '>' then
      (match name with
       | some nm =>
         (match fastaFlush strip nm buf with
          | .error e => .error e
          | .ok r =>
            let nm' := pyStrip ⟨s.data.tail⟩
            if nm' = "" then .error ("Blank header at line " ++ natStr i)
            else read_fasta_go strip rest (i + 1) (some nm') [] (acc ++ [r]))
       | none =>
         let nm' := pyStrip ⟨s.data.tail⟩
         if nm' = "" then .error ("Blank header at line " ++ natStr i)
         else read_fasta_go strip rest (i + 1) (some nm') [] acc)
    else
      (match name with
       | none => .error ("Sequence line before any header at line " ++ natStr i)
       | some _ =>
         read_fasta_go strip rest (i + 1) name (buf ++ [if strip then pyStrip s else s]) acc)

def read_fasta (lines : List String) : Except String (List (String × String)) :=
  read_fasta_go true lines 1 none [] []

/-- Number of distinct sequence strings among the records
(`len({seq for _, seq in recs})`). -/
def distinctCount (recs : List (String × String)) : Nat :=
  (firstDedup (recs.map (·.2))).length

/-- The extra checks `read_fasta_aligned` performs on the parsed records. -/
def alignedChecks (minDistinct : Nat) (recs : List (String × String)) :
    Except String (List (String × String)) :=
  let lengths := firstDedup (recs.map (fun r => r.2.length))
  if lengths.length ≠ 1 then .error "Sequences must be aligned (varying lengths found)."
  else if distinctCount recs < minDistinct then
    .error ("Need at least " ++ natStr minDistinct ++ " distinct sequences.")
  else .ok recs

def read_fasta_aligned (lines : List String) (minDistinct : Nat) :
    Except String (List (String × String)) :=
  match read_fasta lines with
  | .error e => .error e
  | .ok recs => alignedChecks minDistinct recs

/-- `read_fasta_aligned` with the filesystem explicit
(`none` = `FileNotFoundError`). -/
def read_fasta_aligned_fs (fs : String → Option (List String)) (path : String)
    (minDistinct : Nat) : Except String (List (String × String)) :=
  match fs path with
  | none => .error ("FASTA not found: " ++ path)
  | some lines => read_fasta_aligned lines minDistinct

theorem mem_firstDedupAux [DecidableEq α] (seen : List α) (l : List α) (x : α) :
    x ∈ firstDedupAux seen l ↔ x ∈ l ∧ x ∉ seen := by
  induction l generalizing seen with
  | nil => simp [firstDedupAux]
  | cons a l ih =>
    by_cases ha : a ∈ seen
    · simp only [firstDedupAux, if_pos ha, ih]
      constructor
      · rintro ⟨hx, hns⟩; exact ⟨.tail _ hx, hns⟩
      · rintro ⟨hx, hns⟩
        cases hx with
        | head => exact absurd ha hns
        | tail _ h => exact ⟨h, hns⟩
    · simp only [firstDedupAux, if_neg ha]
      constructor
      · intro hx
        cases hx with
        | head => exact ⟨.head _, ha⟩
        | tail _ h =>
          obtain ⟨h1, h2⟩ := (ih _).mp h
          simp only [List.mem_cons, not_or] at h2
          exact ⟨.tail _ h1, h2.2⟩
      · rintro ⟨hx, hns⟩
        cases hx with
        | head => exact .head _
        | tail _ h =>
          by_cases hxa : x = a
          · subst hxa; exact .head _
          · exact .tail _ ((ih _).mpr ⟨h, by simp [hxa, hns]⟩)

theorem mem_firstDedup [DecidableEq α] (l : List α) (x : α) :
    x ∈ firstDedup l ↔ x ∈ l := by
  simp [firstDedup, mem_firstDedupAux]

theorem length_ne_one_of_two_mem {l : List α} {a b : α} (ha : a ∈ l) (hb : b ∈ l)
    (hab : a ≠ b) : l.length ≠ 1 := by
  intro hlen
  match l, hlen with
  | [x], _ =>
    simp only [List.mem_singleton] at ha hb
    exact hab (ha.trans hb.symm)

/-- C8: on records with unequal sequence lengths the aligned-mode reader
fails with the alignment format error, and on records with fewer than
`min_distinct` distinct sequence strings it fails with a format error; in
either case no (partial) record list is returned. -/
theorem c8_aligned_reader_rejects (lines : List String) (recs : List (String × String))
    (d : Nat) (h : read_fasta lines = .ok recs) :
    ((∃ r ∈ recs, ∃ r' ∈ recs, r.2.length ≠ r'.2.length) →
      read_fasta_aligned lines d = .error "Sequences must be aligned (varying lengths found).")
    ∧ (distinctCount recs < d → exceptIsError (read_fasta_aligned lines d) = true) := by
  have hrw : read_fasta_aligned lines d = alignedChecks d recs := by
    simp [read_fasta_aligned, h]
  constructor
  · rintro ⟨r, hr, r', hr', hne⟩
    have h1 : r.2.length ∈ firstDedup (recs.map (fun r => r.2.length)) :=
      (mem_firstDedup _ _).mpr (List.mem_map_of_mem _ hr)
    have h2 : r'.2.length ∈ firstDedup (recs.map (fun r => r.2.length)) :=
      (mem_firstDedup _ _).mpr (List.mem_map_of_mem _ hr')
    have : (firstDedup (recs.map (fun r => r.2.length))).length ≠ 1 :=
      length_ne_one_of_two_mem h1 h2 hne
    rw [hrw]
    simp [alignedChecks, this]
  · intro hd
    rw [hrw]
    unfold alignedChecks
    by_cases hl : (firstDedup (recs.map (fun r => r.2.length))).length ≠ 1
    · simp [hl, exceptIsError]
    · simp [hl, hd, exceptIsError]

/-- Witness for C8 at concrete inputs: a 3-record file with sequence lengths
2/3/1 is rejected with the alignment error, and a 3-record file whose
sequences are all equal (1 distinct < 3) is rejected. -/
theorem c8_witness :
    read_fasta_aligned [">a", "AC", ">b", "ACG", ">c", "A"] 3 =
      .error "Sequences must be aligned (varying lengths found)."
    ∧ exceptIsError (read_fasta_aligned [">a", "AC", ">b", "AC", ">c", "AC"] 3) = true :=
  ⟨(c8_aligned_reader_rejects [">a", "AC", ">b", "ACG", ">c", "A"]
      [("a", "AC"), ("b", "ACG"), ("c", "A")] 3 rfl).1
      ⟨("a", "AC"), by decide, ("b", "ACG"), by decide, by decide⟩,
    (c8_aligned_reader_rejects [">a", "AC", ">b", "AC", ">c", "AC"]
      [("a", "AC"), ("b", "AC"), ("c", "AC")] 3 rfl).2 (by decide)⟩

/-! ## scripts/write_mrbayes_nexus.py -/

/-- `model.upper().split("+")[0]`: the base substitution model. -/
def baseModelOf (model : String) : String :=
  ⟨(pyUpper model).data.takeWhile (· ≠ '+')⟩

/-- `parse_rate_flags`: (gamma-rate requested, invariant-sites requested). -/
def parse_rate_flags (model : String) : Bool × Bool :=
  let up := pyUpper model
  (strContains up "+G" || strContains up "+R", strContains up "+I")

/-- `map_dna_model_to_mrbayes`: base-model command list, with the rates token
substituted into the first command. -/
def map_dna_model_to_mrbayes (model : String) : List String :=
  let base := baseModelOf model
  let gi := parse_rate_flags model
  let cmds :=
    if base = "JC69" then ["lset nst=1 rates=equal;", "prset statefreqpr=fixed(equal);"]
    else if base = "F81" then ["lset nst=1 rates=equal;"]
    else if base = "K80" ∨ base = "K2P" then
      ["lset nst=2 rates=equal;", "prset statefreqpr=fixed(equal);"]
    else if base = "HKY" then ["lset nst=2 rates=equal;"]
    else ["lset nst=6 rates=equal;"]
  let head :=
    if gi.1 && gi.2 then strReplace (cmds.headD "") "rates=equal" "rates=invgamma"
    else if gi.1 then strReplace (cmds.headD "") "rates=equal" "rates=gamma"
    else if gi.2 then strReplace (cmds.headD "") "rates=equal" "rates=propinv"
    else cmds.headD ""
  head :: cmds.tail

/-- `map_aa_model_to_mrbayes` (embedded for completeness of the module). -/
def map_aa_model_to_mrbayes (model : String) : List String :=
  let base := baseModelOf model
  let gi := parse_rate_flags model
  let token :=
    if base = "JTT" then "jones"
    else if base = "WAG" then "wag"
    else if base = "LG" then "lg"
    else if base = "DAYHOFF" then "dayhoff"
    else "lg"
  let head :=
    if gi.1 && gi.2 then "lset rates=invgamma;"
    else if gi.1 then "lset rates=gamma;"
    else if gi.2 then "lset rates=propinv;"
    else "lset rates=equal;"
  [head, "prset aamodelpr=fixed(" ++ token ++ ");"]

/-- The rates token exactly as claim C3 words it: "invgamma" when the model
contains both a gamma token (+G or +R) and +I, "gamma" when only a gamma
token, "propinv" when only +I, and "equal" otherwise. -/
def claimedRatesToken (model : String) : String :=
  let up := pyUpper model
  let gamma := strContains up "+G" || strContains up "+R"
  let invar := strContains up "+I"
  if gamma && invar then "invgamma"
  else if gamma then "gamma"
  else if invar then "propinv"
  else "equal"

/-- The DNA model-to-command mapping exactly as claim C3 words it:
JC69 -> nst=1 with equal state frequencies fixed, F81 -> nst=1,
K80 -> nst=2 with equal state frequencies fixed, HKY -> nst=2,
any other base model -> nst=6. -/
def claimedDnaCommands (model : String) : List String :=
  let base := baseModelOf model
  let tok := claimedRatesToken model
  if base = "JC69" then
    ["lset nst=1 rates=" ++ tok ++ ";", "prset statefreqpr=fixed(equal);"]
  else if base = "F81" then ["lset nst=1 rates=" ++ tok ++ ";"]
  else if base = "K80" then
    ["lset nst=2 rates=" ++ tok ++ ";", "prset statefreqpr=fixed(equal);"]
  else if base = "HKY" then ["lset nst=2 rates=" ++ tok ++ ";"]
  else ["lset nst=6 rates=" ++ tok ++ ";"]

/-- Claim C3 amended: the same mapping but with base model K2P treated like
K80 (nst=2 with equal state frequencies fixed), as the source does. -/
def claimedDnaCommandsAmended (model : String) : List String :=
  let base := baseModelOf model
  let tok := claimedRatesToken model
  if base = "JC69" then
    ["lset nst=1 rates=" ++ tok ++ ";", "prset statefreqpr=fixed(equal);"]
  else if base = "F81" then ["lset nst=1 rates=" ++ tok ++ ";"]
  else if base = "K80" ∨ base = "K2P" then
    ["lset nst=2 rates=" ++ tok ++ ";", "prset statefreqpr=fixed(equal);"]
  else if base = "HKY" then ["lset nst=2 rates=" ++ tok ++ ";"]
  else ["lset nst=6 rates=" ++ tok ++ ";"]

/-- C3 counterexample: at the DNA model string "K2P" the writer emits the
K80-style command pair (nst=2, fixed equal frequencies), not the nst=6
command the claim's "any other base model" clause prescribes. -/
theorem c3_counterexample :
    map_dna_model_to_mrbayes "K2P" ≠ claimedDnaCommands "K2P" := by decide

/-- C3 (amended): for every DNA model string the writer's model-to-command
mapping agrees with the claimed mapping once K2P is grouped with K80. -/
theorem c3_dna_mapping (model : String) :
    map_dna_model_to_mrbayes model = claimedDnaCommandsAmended model := by
  simp only [map_dna_model_to_mrbayes, claimedDnaCommandsAmended, claimedRatesToken,
    parse_rate_flags]
  split_ifs <;> decide

/-! ## scripts/sanitize_inputs.py -/

/-- The base form of `sanitize_label`: non-alphanumeric, non-underscore
characters become underscores; an empty result becomes "TAXON". -/
def sanBase (label : String) : String :=
  let cs := label.data.map (fun c => if c.isAlphanum || c = '_' then c else '_')
  if cs.isEmpty then "TAXON" else ⟨cs⟩

/-- `used.get(base, 0)` on the collision-counter dictionary. -/
def lookupCount (used : List (String × Nat)) (b : String) : Nat :=
  match used with
  | [] => 0
  | (k, n) :: rest => if k = b then n else lookupCount rest b

/-- `used[base] = n` on the collision-counter dictionary. -/
def setCount (used : List (String × Nat)) (b : String) (n : Nat) : List (String × Nat) :=
  match used with
  | [] => [(b, n)]
  | (k, m) :: rest => if k = b then (b, n) :: rest else (k, m) :: setCount rest b n

/-- The label `sanitize_label` returns for base `b` at collision index `i`. -/
def mkOut (b : String) (i : Nat) : String :=
  if i = 0 then b else b ++ "_" ++ natStr i

/-- `sanitize_label(label, used)`: sanitized token and updated counter state. -/
def sanitize_label (label : String) (used : List (String × Nat)) :
    String × List (String × Nat) :=
  let base := sanBase label
  let idx := lookupCount used base
  (mkOut base idx, setCount used base (idx + 1))

/-- The token sequence the sanitizer main loop produces for a list of input
header labels (threading the shared `used` dictionary). -/
def sanitizeAll (used : List (String × Nat)) : List String → List String
  | [] => []
  | l :: ls =>
    let r := sanitize_label l used
    r.1 :: sanitizeAll r.2 ls

/-- Does the string end in an underscore followed by a nonempty run of
decimal digits (the shape of a disambiguated token)? -/
def endsUD (s : String) : Bool :=
  let r := s.data.reverse
  (!(r.takeWhile Char.isDigit).isEmpty) &&
    ((r.dropWhile Char.isDigit).head? == some '_')

/-- C10 counterexample: on the header list ["a_1", "a", "a"] the sanitizer
produces ["a_1", "a", "a_1"], so two different original records receive the
same sanitized label. -/
theorem c10_counterexample :
    sanitizeAll [] ["a_1", "a", "a"] = ["a_1", "a", "a_1"] ∧
      ¬ (sanitizeAll [] ["a_1", "a", "a"]).Nodup := by decide

theorem string_data_append (a b : String) : (a ++ b).data = a.data ++ b.data := rfl

theorem string_ext {a b : String} (h : a.data = b.data) : a = b := by
  cases a; cases b; exact congrArg String.mk h

theorem natCharsF_succ (f n : Nat) : natCharsF (f + 1) n =
    if n < 10 then [Nat.digitChar n]
    else natCharsF f (n / 10) ++ [Nat.digitChar (n % 10)] := rfl

/-- Fuel irrelevance for the decimal-digit function. -/
theorem natCharsF_fuel : ∀ f g n, n < f → n < g → natCharsF f n = natCharsF g n := by
  intro f
  induction f with
  | zero => intro g n h; omega
  | succ f ih =>
    intro g n hf hg
    match g, hg with
    | g + 1, _ =>
      rw [natCharsF_succ, natCharsF_succ]
      by_cases h10 : n < 10
      · simp [h10]
      · simp only [if_neg h10]
        rw [ih g (n / 10) (by omega) (by omega)]

def natChars (n : Nat) : List Char := natCharsF (n + 1) n

theorem natStr_data (n : Nat) : (natStr n).data = natChars n := rfl

theorem natChars_unfold (n : Nat) :
    natChars n = if n < 10 then [Nat.digitChar n]
                 else natChars (n / 10) ++ [Nat.digitChar (n % 10)] := by
  show natCharsF (n + 1) n = _
  rw [natCharsF_succ]
  by_cases h10 : n < 10
  · simp [h10]
  · simp only [if_neg h10, natChars]
    rw [natCharsF_fuel n (n / 10 + 1) (n / 10) (by omega) (by omega)]

theorem natChars_ne_nil (n : Nat) : natChars n ≠ [] := by
  rw [natChars_unfold]
  by_cases h10 : n < 10 <;> simp [h10]

theorem digitChar_isDigit : ∀ k, k < 10 → (Nat.digitChar k).isDigit = true := by decide

theorem digitChar_inj_lt : ∀ m, m < 10 → ∀ k, k < 10 →
    Nat.digitChar m = Nat.digitChar k → m = k := by decide

theorem natChars_all_digit (n : Nat) : ∀ c ∈ natChars n, c.isDigit = true := by
  induction n using Nat.strong_induction_on with
  | _ n ih =>
    rw [natChars_unfold]
    by_cases h10 : n < 10
    · simp only [if_pos h10, List.mem_singleton]
      rintro c rfl
      exact digitChar_isDigit n h10
    · simp only [if_neg h10, List.mem_append, List.mem_singleton]
      rintro c (hc | rfl)
      · exact ih (n / 10) (Nat.div_lt_self (by omega) (by omega)) c hc
      · exact digitChar_isDigit (n % 10) (Nat.mod_lt n (by omega))

theorem append_singleton_inj {l1 l2 : List Char} {a b : Char}
    (h : l1 ++ [a] = l2 ++ [b]) : l1 = l2 ∧ a = b := by
  have hr := congrArg List.reverse h
  simp only [List.reverse_append, List.reverse_cons, List.reverse_nil, List.nil_append,
    List.singleton_append, List.cons.injEq] at hr
  exact ⟨by simpa using congrArg List.reverse hr.2, hr.1⟩

theorem natChars_inj : ∀ m n, natChars m = natChars n → m = n := by
  intro m
  induction m using Nat.strong_induction_on with
  | _ m ih =>
    intro n h
    rw [natChars_unfold m, natChars_unfold n] at h
    by_cases hm : m < 10 <;> by_cases hn : n < 10
    · simp only [if_pos hm, if_pos hn, List.cons.injEq] at h
      exact digitChar_inj_lt m hm n hn h.1
    · simp only [if_pos hm, if_neg hn] at h
      have := congrArg List.length h
      simp only [List.length_singleton, List.length_append] at this
      have h0 : (natChars (n / 10)).length = 0 := by omega
      exact absurd (List.length_eq_zero.mp h0) (natChars_ne_nil _)
    · simp only [if_neg hm, if_pos hn] at h
      have := congrArg List.length h
      simp only [List.length_singleton, List.length_append] at this
      have h0 : (natChars (m / 10)).length = 0 := by omega
      exact absurd (List.length_eq_zero.mp h0) (natChars_ne_nil _)
    · simp only [if_neg hm, if_neg hn] at h
      obtain ⟨h1, h2⟩ := append_singleton_inj h
      have hdiv : m / 10 = n / 10 :=
        ih (m / 10) (Nat.div_lt_self (by omega) (by omega)) (n / 10) h1
      have hmod : m % 10 = n % 10 :=
        digitChar_inj_lt (m % 10) (Nat.mod_lt m (by omega)) (n % 10)
          (Nat.mod_lt n (by omega)) h2
      have hm' := Nat.div_add_mod m 10
      have hn' := Nat.div_add_mod n 10
      omega

theorem takeWhile_append_all {p : Char → Bool} (l1 l2 : List Char)
    (h : ∀ c ∈ l1, p c = true) :
    (l1 ++ l2).takeWhile p = l1 ++ l2.takeWhile p := by
  induction l1 with
  | nil => simp
  | cons a l ih =>
    have ha : p a = true := h a (.head _)
    simp only [List.cons_append, List.takeWhile_cons, ha, if_true]
    rw [ih (fun c hc => h c (.tail _ hc))]

theorem dropWhile_append_all {p : Char → Bool} (l1 l2 : List Char)
    (h : ∀ c ∈ l1, p c = true) :
    (l1 ++ l2).dropWhile p = l2.dropWhile p := by
  induction l1 with
  | nil => simp
  | cons a l ih =>
    have ha : p a = true := h a (.head _)
    simp only [List.cons_append, List.dropWhile_cons, ha, if_true]
    exact ih (fun c hc => h c (.tail _ hc))

/-- The data of `b ++ "_" ++ natStr i`. -/
theorem mkOut_data (b : String) (i : Nat) :
    (b ++ "_" ++ natStr i).data = b.data ++ '_' :: natChars i := by
  simp [string_data_append, natStr_data]

theorem isDigit_underscore : Char.isDigit '_' = false := by decide

/-- A token of the shape `b ++ "_" ++ digits` ends in an underscore-digit run. -/
theorem endsUD_of_suffix (b : String) (i : Nat) :
    endsUD (b ++ "_" ++ natStr i) = true := by
  simp only [endsUD]
  rw [mkOut_data]
  have hrev : (b.data ++ '_' :: natChars i).reverse =
      (natChars i).reverse ++ '_' :: b.data.reverse := by simp
  rw [hrev]
  have hdig : ∀ c ∈ (natChars i).reverse, Char.isDigit c = true := fun c hc =>
    natChars_all_digit i c (List.mem_reverse.mp hc)
  rw [takeWhile_append_all _ _ hdig, dropWhile_append_all _ _ hdig]
  have h1 : List.takeWhile Char.isDigit ('_' :: b.data.reverse) = [] := by
    simp [List.takeWhile_cons, isDigit_underscore]
  have h2 : List.dropWhile Char.isDigit ('_' :: b.data.reverse) = '_' :: b.data.reverse := by
    simp [List.dropWhile_cons, isDigit_underscore]
  rw [h1, h2, List.append_nil]
  have h3 : (natChars i).reverse.isEmpty = false := by
    by_cases hc : (natChars i).reverse.isEmpty
    · exact absurd (List.reverse_eq_nil_iff.mp (List.isEmpty_iff.mp hc)) (natChars_ne_nil i)
    · simpa using hc
  rw [h3]
  rfl

/-- Disambiguated tokens determine their base and index uniquely. -/
theorem suffix_token_inj {b1 b2 : String} {i k : Nat}
    (h : b1 ++ "_" ++ natStr i = b2 ++ "_" ++ natStr k) : b1 = b2 ∧ i = k := by
  have hd := congrArg String.data h
  rw [mkOut_data, mkOut_data] at hd
  have hr := congrArg List.reverse hd
  have hrevs : ∀ (b : String) (i : Nat), (b.data ++ '_' :: natChars i).reverse =
      (natChars i).reverse ++ '_' :: b.data.reverse := by
    intro b i; simp
  rw [hrevs, hrevs] at hr
  have hdig : ∀ (i : Nat) (c : Char), c ∈ (natChars i).reverse → Char.isDigit c = true :=
    fun i c hc => natChars_all_digit i c (List.mem_reverse.mp hc)
  have htake := congrArg (List.takeWhile Char.isDigit) hr
  rw [takeWhile_append_all _ _ (hdig i), takeWhile_append_all _ _ (hdig k)] at htake
  have hund : ∀ (l : List Char), List.takeWhile Char.isDigit ('_' :: l) = [] := by
    intro l; simp [List.takeWhile_cons, isDigit_underscore]
  rw [hund, hund, List.append_nil, List.append_nil] at htake
  have hik : i = k := natChars_inj i k (by simpa using congrArg List.reverse htake)
  have hdrop := congrArg (List.dropWhile Char.isDigit) hr
  rw [dropWhile_append_all _ _ (hdig i), dropWhile_append_all _ _ (hdig k)] at hdrop
  have hund2 : ∀ (l : List Char), List.dropWhile Char.isDigit ('_' :: l) = '_' :: l := by
    intro l; simp [List.dropWhile_cons, isDigit_underscore]
  rw [hund2, hund2] at hdrop
  simp only [List.cons.injEq, true_and] at hdrop
  exact ⟨string_ext (by simpa using congrArg List.reverse hdrop), hik⟩

/-- `mkOut` produces different tokens at different indices of the same base. -/
theorem mkOut_inj_idx {b : String} {i k : Nat} (h : mkOut b i = mkOut b k) : i = k := by
  unfold mkOut at h
  by_cases hi : i = 0 <;> by_cases hk : k = 0
  · omega
  · rw [if_pos hi, if_neg hk] at h
    have hlen := congrArg (fun s => s.data.length) h
    simp only [mkOut_data, List.length_append, List.length_cons] at hlen
    have hne := natChars_ne_nil k
    have hlz : (natChars k).length ≠ 0 := fun h0 => hne (List.length_eq_zero.mp h0)
    omega
  · rw [if_neg hi, if_pos hk] at h
    have hlen := congrArg (fun s => s.data.length) h
    simp only [mkOut_data, List.length_append, List.length_cons] at hlen
    have hne := natChars_ne_nil i
    have hlz : (natChars i).length ≠ 0 := fun h0 => hne (List.length_eq_zero.mp h0)
    omega
  · rw [if_neg hi, if_neg hk] at h
    exact (suffix_token_inj h).2

/-- `mkOut` tokens of different bases coincide only through the
underscore-digit shape excluded by the amended hypothesis. -/
theorem mkOut_ne_of_base_ne {b1 b2 : String} {i k : Nat} (hb : b1 ≠ b2)
    (h1 : endsUD b1 = false) (h2 : endsUD b2 = false) : mkOut b1 i ≠ mkOut b2 k := by
  unfold mkOut
  by_cases hi : i = 0 <;> by_cases hk : k = 0
  · simpa [hi, hk] using hb
  · rw [if_pos hi, if_neg hk]
    intro h
    rw [h, endsUD_of_suffix] at h1
    exact Bool.noConfusion h1
  · rw [if_neg hi, if_pos hk]
    intro h
    rw [← h, endsUD_of_suffix] at h2
    exact Bool.noConfusion h2
  · rw [if_neg hi, if_neg hk]
    intro h
    exact hb (suffix_token_inj h).1

theorem lookupCount_setCount (used : List (String × Nat)) (b b' : String) (n : Nat) :
    lookupCount (setCount used b n) b' = if b' = b then n else lookupCount used b' := by
  induction used with
  | nil =>
    simp only [setCount, lookupCount]
    by_cases hb : b = b'
    · subst hb; simp
    · rw [if_neg hb, if_neg (fun h : b' = b => hb h.symm)]
  | cons p rest ih =>
    obtain ⟨k, m⟩ := p
    by_cases hkb : k = b
    · subst hkb
      simp only [setCount, if_pos rfl, lookupCount]
      by_cases hb' : k = b'
      · subst hb'; simp
      · rw [if_neg hb', if_neg hb', if_neg (fun h : b' = k => hb' h.symm)]
    · simp only [setCount, if_neg hkb, lookupCount]
      by_cases hb' : k = b'
      · subst hb'
        rw [if_pos rfl, if_pos rfl, if_neg hkb]
      · rw [if_neg hb', if_neg hb', ih]

/-- Every token in the sanitizer output arises from some input label, at a
collision index at least the current counter value of its base. -/
theorem sanitizeAll_mem (ls : List String) :
    ∀ (used : List (String × Nat)) (out : String), out ∈ sanitizeAll used ls →
      ∃ l ∈ ls, ∃ k, lookupCount used (sanBase l) ≤ k ∧ out = mkOut (sanBase l) k := by
  induction ls with
  | nil => intro used out h; simp [sanitizeAll] at h
  | cons l ls ih =>
    intro used out h
    simp only [sanitizeAll, sanitize_label, List.mem_cons] at h
    rcases h with h | h
    · exact ⟨l, .head _, lookupCount used (sanBase l), le_refl _, h⟩
    · obtain ⟨l', hl', k, hk, hout⟩ := ih _ out h
      refine ⟨l', .tail _ hl', k, ?_, hout⟩
      rw [lookupCount_setCount] at hk
      by_cases hbb : sanBase l' = sanBase l
      · rw [if_pos hbb] at hk
        rw [hbb]
        omega
      · rwa [if_neg hbb] at hk

/-- Main C10 invariant: if no input's sanitized base form ends in an
underscore-digit run, the produced tokens are pairwise distinct. -/
theorem sanitizeAll_nodup (ls : List String) :
    ∀ used : List (String × Nat),
      (∀ l ∈ ls, endsUD (sanBase l) = false) → (sanitizeAll used ls).Nodup := by
  induction ls with
  | nil => intro used _; simp [sanitizeAll]
  | cons l ls ih =>
    intro used h
    simp only [sanitizeAll, sanitize_label, List.nodup_cons]
    refine ⟨?_, ih _ (fun l' hl' => h l' (.tail _ hl'))⟩
    intro hmem
    obtain ⟨l', hl', k, hk, hout⟩ := sanitizeAll_mem ls _ _ hmem
    rw [lookupCount_setCount] at hk
    by_cases hbb : sanBase l' = sanBase l
    · rw [if_pos hbb] at hk
      rw [hbb] at hout
      have := mkOut_inj_idx hout
      omega
    · exact mkOut_ne_of_base_ne (Ne.symm hbb) (h l (.head _)) (h l' (.tail _ hl')) hout

/-- C10 (amended): for every ordered list of input header labels none of whose
sanitized base forms ends in an underscore followed by decimal digits, the
labels produced by the input sanitizer (non-alphanumeric characters replaced
by underscores, collisions disambiguated with a numeric suffix) are pairwise
distinct; without that proviso two different original records can be merged
under one label (see the counterexample). -/
theorem c10_sanitizer_distinct (labels : List String)
    (h : ∀ l ∈ labels, endsUD (sanBase l) = false) :
    (sanitizeAll [] labels).Nodup :=
  sanitizeAll_nodup labels [] h

/-- Witness for C10 at a concrete input with a genuine collision to
disambiguate: ["x y", "x y", "b"] yields the distinct tokens
["x_y", "x_y_1", "b"]. -/
theorem c10_witness :
    (∀ l ∈ ["x y", "x y", "b"], endsUD (sanBase l) = false) ∧
      (sanitizeAll [] ["x y", "x y", "b"]).Nodup :=
  ⟨by decide, c10_sanitizer_distinct ["x y", "x y", "b"] (by decide)⟩

/-! ## scripts/validate_config.py

The engine is modelled as a pure function of the loaded YAML document plus
an environment (filesystem and the interactive reply).  A successful run
returns the sanitized configuration value together with the ordered warning
list; `sys.exit` is `VErr.exit`, an uncaught Python exception is
`VErr.crash`.  The two in-place `data` mutations (`gap_symbol`,
`post_alignment_qc`) are applied when the sanitized value is assembled;
no intermediate step reads either key, so this is observationally the same
as the source's in-place order. -/

inductive VErr where
  | exit (code : Int) (msg : String)
  | crash (msg : String)

structure VEnv where
  fs : String → Option (List String)
  resp : String

/-- Python `v == "s"` for a YAML value against a string literal. -/
def isStrEq (v : YVal) (s : String) : Bool :=
  match v with
  | .str t => t = s
  | _ => false

def bfDefault : Rat := mkRat 1 10

/-- The `DEFAULTS` table. -/
def DEFAULTS : List (String × List (String × YVal)) :=
  [("UPGMA", [("model", .map [("dna", .str "JC69"), ("aa", .str "JTT")])]),
   ("NJ", [("model", .map [("dna", .str "JC69"), ("aa", .str "JTT")])]),
   ("MP", [("starter", .str "random")]),
   ("ML", [("model", .map [("dna", .str "GTR+F+R4"), ("aa", .str "LG+F+R4")]),
           ("starter", .str "random")]),
   ("BI", [("model", .map [("dna", .str "GTR+G"), ("aa", .str "LG")]),
           ("starter", .str "random"), ("burninfrac", .float bfDefault)])]

def lookupTable (t : List (String × List (String × YVal))) (k : String) :
    Option (List (String × YVal)) :=
  match t with
  | [] => none
  | (k', v) :: rest => if k' = k then some v else lookupTable rest k

/-- `default_for(datatype, method, key)`. -/
def default_for (datatype method key : String) : Option YVal :=
  match lookupTable DEFAULTS method with
  | none => none
  | some sub =>
    match mapLookup sub key with
    | some (.map m) => mapLookup m datatype
    | some v => some v
    | none => none

def pyStrOfOpt : Option YVal → String
  | some v => pyStrOf v
  | none => "None"

def optStrY : Option String → YVal
  | some s => .str s
  | none => .nil

/-- `as_bool(x, default)`: coerced value plus the optional warning text. -/
def as_bool (x : YVal) (dflt : Bool) : Bool × Option String :=
  let dfltStr := if dflt then "True" else "False"
  match x with
  | .bool b => (b, none)
  | .str s =>
    let t := pyLower (pyStrip s)
    if t = "true" ∨ t = "t" ∨ t = "yes" ∨ t = "y" ∨ t = "1" then (true, none)
    else if t = "false" ∨ t = "f" ∨ t = "no" ∨ t = "n" ∨ t = "0" then (false, none)
    else (dflt, some ("value '" ++ s ++ "' invalid; using default " ++ dfltStr))
  | v => (dflt, some ("value '" ++ pyStrOf v ++ "' invalid; using default " ++ dfltStr))

/-- The fixed allowed model set of `normalized_model` per method/datatype. -/
def allowedModels (method datatype : String) : List String :=
  if method = "UPGMA" ∨ method = "NJ" then
    (if datatype = "dna" then ["JC69", "F81", "K80", "HKY", "TN93", "GTR"]
     else ["JTT", "LG", "WAG", "DAYHOFF"])
  else if method = "ML" then
    ["GTR+F+R4", "GTR+G", "GTR+I+G", "LG+F+R4", "LG+G", "LG+I+G"]
  else if method = "BI" then ["GTR+G", "GTR+I+G", "LG", "LG+G"]
  else []

def defaultModelStr (datatype method : String) : Option String :=
  match default_for datatype method "model" with
  | some (.str s) => some s
  | _ => none

/-- `normalized_model` (the source's non-string early return is handled at
the call site, which only calls it on a non-blank string).  The first
component is the cleaned/defaulted model (`none` models Python `None` when
the default table has no entry for the datatype); the second is the warning. -/
def normalized_model (model datatype method : String) : Option String × Option String :=
  let cleaned := pyUpper (pyStrip model)
  let warnTxt := "model '" ++ model ++ "' invalid for " ++ method ++ "; using default"
  if method = "UPGMA" ∨ method = "NJ" then
    (if cleaned ∈ allowedModels method datatype then (some cleaned, none)
     else (defaultModelStr datatype method, some warnTxt))
  else if method = "ML" then
    (if cleaned ∈ allowedModels method datatype then (some cleaned, none)
     else (defaultModelStr datatype method, some warnTxt))
  else if method = "BI" then
    (if cleaned ∈ allowedModels method datatype then (some cleaned, none)
     else (defaultModelStr datatype method, some warnTxt))
  else (some cleaned, none)

/-- Python `s.split(c)` (keeps empty fields). -/
def splitCharGo (c : Char) (cur : List Char) : List Char → List String
  | [] => [⟨cur.reverse⟩]
  | a :: rest =>
    if a = c then ⟨cur.reverse⟩ :: splitCharGo c [] rest
    else splitCharGo c (a :: cur) rest

def splitChar (c : Char) (s : String) : List String := splitCharGo c [] s.data

/-- `validate_metafile`: the warning it appends (`none` = metafile usable). -/
def validate_metafile (env : VEnv) (path : YVal) (headers : List String) : Option String :=
  match path with
  | .str p =>
    if p.isEmpty then
      some "mantel enabled but no metafile provided; mantel tests will not be performed."
    else
      (match env.fs p with
       | none => some ("mantel enabled but metafile not found: " ++ p ++
           "; mantel tests will not be performed.")
       | some rawLines =>
         let lines := rawLines.filter (fun ln => !(pyStrip ln).isEmpty)
         match lines with
         | [] => some ("metafile is empty: " ++ p ++ "; mantel tests will not be performed.")
         | first :: rest =>
           if (splitChar '\t' first).length < 2 then
             some ("metafile must be TSV with header and ≥2 columns: " ++ p ++
               "; mantel tests will not be performed.")
           else
             let firstCol := rest.map (fun ln => (splitChar '\t' ln).headD "")
             if firstCol.any (fun v => !(headers.contains v)) then
               some "metafile first column has values not in FASTA headers; mantel tests will not be performed."
             else none)
  | _ => some "mantel enabled but no metafile provided; mantel tests will not be performed."

/-- `normalize_gap_symbol`: normalized symbol plus appended warnings. -/
def normalize_gap_symbol (value : YVal) : String × List String :=
  match value with
  | .str s =>
    let trimmed := pyStrip s
    if trimmed.length = 1 then (trimmed, [])
    else ("-", ["[data.gap_symbol] invalid value '" ++ s ++ "'; using default '-'"])
  | v => ("-", ["[data.gap_symbol] invalid value '" ++ pyStrOf v ++ "'; using default '-'"])

def DNA_ALLOWED : List Char := "ACGTRYMKSWHBVDN".data
def AA_ALLOWED : List Char := "ARNDCEQGHILKMFPSTWYVX".data

/-- `ensure_allowed_characters`: hard error at the first record with invalid
residues. -/
def charCheckGo (allowed : List Char) (datatype : String) :
    List (String × String) → Except VErr Unit
  | [] => .ok ()
  | (h, seq) :: rest =>
    let invalid := sortLe (firstDedup ((pyUpper seq).data.filter (fun ch => !(allowed.contains ch))))
    if invalid.isEmpty then charCheckGo allowed datatype rest
    else
      .error (.exit 2 ("sequence '" ++ h ++ "' contains invalid characters for " ++
        pyUpper datatype ++ " data: " ++
        joinSep ", " (invalid.map (fun c => (⟨[c]⟩ : String))) ++
        " (allowed: " ++ (⟨sortLe (firstDedup allowed)⟩ : String) ++ ")"))

def ensure_allowed_characters (recs : List (String × String)) (datatype gap : String) :
    Except VErr Unit :=
  let allowed := (if datatype = "dna" then DNA_ALLOWED else AA_ALLOWED) ++ (pyUpper gap).data
  charCheckGo allowed datatype recs

/-- The `runtime.seed` stage: warnings only (the normalized seed is a local
variable the source never writes back). -/
def seedWarnings (seedRaw : YVal) : List String :=
  match seedRaw with
  | .nil => []
  | v =>
    let msg := "[runtime.seed] '" ++ pyStrOf v ++ "' invalid; no seed enforced"
    match pyIntOf v with
    | some n => if n ≤ 0 then [msg] else []
    | none => [msg]

/-- The mantel block: warnings only (none of the coerced values are written
back into the configuration). -/
def mantelWarnings (env : VEnv) (mantel : List (String × YVal))
    (data0 : List (String × YVal)) (headers : List String) : List String :=
  let en := as_bool (mapGetD mantel "enabled" (.bool false)) false
  let enWs := match en.2 with
    | some w => ["[mantel.enabled] " ++ w]
    | none => []
  let methodV := mapGetD mantel "method" (.str "spearman")
  let methWs :=
    if isStrEq methodV "spearman" || isStrEq methodV "pearson" then []
    else ["[mantel.method] '" ++ pyStrOf methodV ++ "' invalid; using 'spearman'"]
  let permsRaw := mapGetD mantel "permutations" (.int 1000)
  let permMsg := "[mantel.permutations] '" ++ pyStrOf permsRaw ++ "' invalid; using 1000"
  let permWs :=
    match pyIntOf permsRaw with
    | some n => if n ≤ 0 then [permMsg] else []
    | none => [permMsg]
  let metaWs :=
    if en.1 then
      (match validate_metafile env (mapGetD data0 "metafile" .nil) headers with
       | some w => [w]
       | none => [])
    else []
  enWs ++ methWs ++ permWs ++ metaWs

/-- `cfg.get(key, {})` followed by attribute access: non-mapping, non-missing
values crash (Python `AttributeError`). -/
def asMapD : Option YVal → Except VErr (List (String × YVal))
  | none => .ok []
  | some (.map m) => .ok m
  | some _ => .error (.crash "AttributeError: value is not a dict")

structure StageState where
  cfgm : List (String × YVal)
  data0 : List (String × YVal)
  gap : String
  qc : Bool
  recs : List (String × String)
  headers : List String
  biAllowed : Bool
  datatype : String
  warnings : List String

/-- `cfg = yaml.safe_load(...) or {}` followed by attribute access. -/
def requireCfg (raw : YVal) : Except VErr (List (String × YVal)) :=
  match pyOr raw (.map []) with
  | .map m => .ok m
  | _ => .error (.crash "AttributeError: cfg is not a dict")

/-- The `data.fasta` hard check. -/
def requireFasta (v : Option YVal) : Except VErr String :=
  match v with
  | some (.str s) =>
    if s.isEmpty then .error (.exit 2 "data.fasta must be a path to an aligned FASTA")
    else .ok s
  | _ => .error (.exit 2 "data.fasta must be a path to an aligned FASTA")

/-- The `data.datatype` hard check (returns the lowercased datatype). -/
def requireDatatype (v : Option YVal) : Except VErr String :=
  match v with
  | some (.str s) =>
    if pyLower s = "dna" ∨ pyLower s = "aa" then .ok (pyLower s)
    else .error (.exit 2 "data.datatype must be 'dna' or 'aa'")
  | _ => .error (.exit 2 "data.datatype must be 'dna' or 'aa'")

/-- The alignment load (`read_fasta_aligned(..., min_distinct=3)`);
failures become the hard error `invalid FASTA`. -/
def loadAlignment (env : VEnv) (fasta : String) :
    Except VErr (List (String × String)) :=
  match read_fasta_aligned_fs env.fs fasta 3 with
  | .error e => .error (.exit 2 ("invalid FASTA: " ++ e))
  | .ok recs => .ok recs

def BI_SKIP_WARNING : String :=
  "FASTA has fewer than 4 taxa. BI (MrBayes) requires 4. BI trees will be skipped."

def qcWarnList (data0 : List (String × YVal)) : List String :=
  match (as_bool (mapGetD data0 "post_alignment_qc" (.bool false)) false).2 with
  | some w => ["[data.post_alignment_qc] " ++ w]
  | none => []

/-- Stages 1-7 of the Rule Engine (seed, data block, alignment load,
datatype, character set, QC flag, mantel block), in the source's check
order; the warning list is assembled in the source's append order. -/
def stageA (env : VEnv) (raw : YVal) : Except VErr StageState :=
  requireCfg raw >>= fun cfgm =>
  asMapD (mapLookup cfgm "runtime") >>= fun rt =>
  asMapD (mapLookup cfgm "data") >>= fun data0 =>
  requireFasta (mapLookup data0 "fasta") >>= fun fasta =>
  loadAlignment env fasta >>= fun recs =>
  requireDatatype (mapLookup data0 "datatype") >>= fun dtl =>
  ensure_allowed_characters recs dtl
    (normalize_gap_symbol (mapGetD data0 "gap_symbol" (.str "-"))).1 >>= fun _ =>
  asMapD (mapLookup cfgm "mantel") >>= fun mantel =>
  .ok { cfgm := cfgm, data0 := data0,
        gap := (normalize_gap_symbol (mapGetD data0 "gap_symbol" (.str "-"))).1,
        qc := (as_bool (mapGetD data0 "post_alignment_qc" (.bool false)) false).1,
        recs := recs, headers := recs.map (·.1),
        biAllowed := !((recs.map (·.1)).length < 4),
        datatype := dtl,
        warnings := seedWarnings (mapGetD rt "seed" .nil) ++
          (normalize_gap_symbol (mapGetD data0 "gap_symbol" (.str "-"))).2 ++
          (if (recs.map (·.1)).length < 4 then [BI_SKIP_WARNING] else []) ++
          qcWarnList data0 ++
          mantelWarnings env mantel data0 (recs.map (·.1)) }

abbrev Entry := List (String × YVal)

/-- Python `for t in trees` over the raw `trees` value (lists iterate
elements, strings iterate characters, dicts iterate keys, scalars raise). -/
def iterElems : YVal → Except VErr (List YVal)
  | .list xs => .ok xs
  | .str s => .ok (s.data.map (fun c => .str ⟨[c]⟩))
  | .map m => .ok (m.map (fun p => .str p.1))
  | _ => .error (.crash "TypeError: 'trees' value is not iterable")

/-- The structural filter over tree entries: keep dict entries with a
non-empty name, warn on everything else. -/
def filterEntries : List YVal → List Entry × List String
  | [] => ([], [])
  | v :: vs =>
    let rest := filterEntries vs
    match v with
    | .map e =>
      (match mapLookup e "name" with
       | some (.str s) =>
         if (pyStrip s).isEmpty then
           (rest.1, "[trees] entry without a valid 'name' skipped" :: rest.2)
         else (e :: rest.1, rest.2)
       | _ => (rest.1, "[trees] entry without a valid 'name' skipped" :: rest.2))
    | _ => (rest.1, "[trees] non-dict entry skipped" :: rest.2)

/-- `t["name"]` on a surviving entry (the filter guarantees a string name;
on other entries Python would raise `KeyError`). -/
def entryName (e : Entry) : String :=
  match mapLookup e "name" with
  | some (.str s) => s
  | _ => ""

/-- The duplicate-name list, in `Counter` (first-occurrence) order. -/
def dupsOf (names : List String) : List String :=
  (firstDedup names).filter (fun n => decide (1 < names.count n))

def allowed_keys_by_method (m : String) : List String :=
  if m = "UPGMA" then ["name", "method", "model"]
  else if m = "NJ" then ["name", "method", "model"]
  else if m = "MP" then ["name", "method", "starter"]
  else if m = "ML" then ["name", "method", "model", "starter"]
  else if m = "BI" then ["name", "method", "model", "starter", "burninfrac"]
  else []

/-- Python `repr` of a sorted list of strings (the extras warning). -/
def pyListRepr (l : List String) : String :=
  "[" ++ joinSep ", " (l.map (fun s => "'" ++ s ++ "'")) ++ "]"

/-- The message shape `f"[{name}] {core}"` shared by all per-tree warnings. -/
def specMsg (name core : String) : String := "[" ++ name ++ "] " ++ core

/-- The `model` block of the per-tree loop (`mv` is `t.get("model")`). -/
def modelField (dt m name : String) (mv : Option YVal) :
    List (String × YVal) × List String :=
  let missing : List (String × YVal) × List String :=
    ([("model", (default_for dt m "model").getD .nil)],
     [specMsg name ("model missing; using default '" ++
       pyStrOfOpt (default_for dt m "model") ++ "' for " ++ pyUpper dt)])
  match mv with
  | some (.str s) =>
    if (pyStrip s).isEmpty then missing
    else
      let nm := normalized_model s dt m
      (match nm.2 with
       | some w =>
         ([("model", optStrY nm.1)],
          [specMsg name (w ++ " '" ++ pyStrOfOpt (default_for dt m "model") ++
            "' for " ++ pyUpper dt)])
       | none => ([("model", optStrY nm.1)], []))
  | _ => missing

/-- The raw starter value (`t.get("starter", default_for(...))`). -/
def starterRaw (dt m : String) (sv : Option YVal) : YVal :=
  match sv with
  | some v => v
  | none => (default_for dt m "starter").getD .nil

/-- The trimmed starter string (`""` for non-string values). -/
def starterTrim (dt m : String) (sv : Option YVal) : String :=
  match starterRaw dt m sv with
  | .str s => pyStrip s
  | _ => ""

/-- The `starter` block of the per-tree loop (`sv` is the raw `starter`
field, `none` when absent). -/
def starterField (dt m name : String) (sv : Option YVal) (seen : List String) :
    List (String × YVal) × List String :=
  let st := starterTrim dt m sv
  if pyLower st = "random" then ([("starter", .str "random")], [])
  else if st ∈ seen then ([("starter", .str st)], [])
  else if st.isEmpty then ([("starter", .str "random")], [])
  else ([("starter", .str "random")],
    [specMsg name ("starter '" ++ st ++
      "' not found among previously defined trees; using 'random'")])

/-- The `burninfrac` block of the per-tree loop. -/
def bfField (name : String) (bv : Option YVal) :
    List (String × YVal) × List String :=
  let raw := match bv with | some v => v | none => .float bfDefault
  let bfMsg := specMsg name ("burninfrac '" ++ pyStrOf raw ++ "' invalid; using " ++
    ratRepr bfDefault)
  match pyFloatOf raw with
  | some bf =>
    if ratLt (mkRat 0 1) bf ∧ ratLt bf (mkRat 1 1) then ([("burninfrac", .float bf)], [])
    else ([("burninfrac", .float bfDefault)], [bfMsg])
  | none => ([("burninfrac", .float bfDefault)], [bfMsg])

/-- The ignored-keys list of a tree entry (`sorted(set(t.keys()) - allowed)`). -/
def extrasOf (t : Entry) (m : String) : List String :=
  sortLe ((firstDedup (t.map (·.1))).filter
    (fun k => !((allowed_keys_by_method m).contains k)))

/-- The ignored-keys warning of a tree entry. -/
def extrasWarn (t : Entry) (m name : String) : List String :=
  if (extrasOf t m).isEmpty then []
  else [specMsg name ("ignoring keys not applicable to " ++ m ++ ": " ++
    pyListRepr (extrasOf t m))]

/-- Per-tree validation: `some` accepted spec (in insertion order
name, method, model?, starter?, burninfrac?) or `none` for a dropped spec,
plus the warnings appended for this entry. -/
def validateOne (dt : String) (bi : Bool) (ntaxa : Nat) (seen : List String) (t : Entry) :
    Option Entry × List String :=
  let name := entryName t
  let methodOk : Option String :=
    match mapLookup t "method" with
    | some (.str m) =>
      if m = "UPGMA" ∨ m = "NJ" ∨ m = "MP" ∨ m = "ML" ∨ m = "BI" then some m else none
    | _ => none
  match methodOk with
  | none =>
    (none, [specMsg name ("method '" ++ pyStrOfOpt (mapLookup t "method") ++
      "' invalid; this tree will be skipped")])
  | some m =>
    if m = "BI" ∧ bi = false then
      (none, [specMsg name ("BI requires ≥4 taxa; skipping this tree because only " ++
        natStr ntaxa ++ " were found.")])
    else
      let modelRes :=
        if "model" ∈ allowed_keys_by_method m then modelField dt m name (mapLookup t "model")
        else ([], [])
      let starterRes :=
        if "starter" ∈ allowed_keys_by_method m then
          starterField dt m name (mapLookup t "starter") seen
        else ([], [])
      let bfRes :=
        if "burninfrac" ∈ allowed_keys_by_method m then bfField name (mapLookup t "burninfrac")
        else ([], [])
      (some ([("name", .str name), ("method", .str m)] ++ modelRes.1 ++ starterRes.1 ++
        bfRes.1),
       extrasWarn t m name ++ modelRes.2 ++ starterRes.2 ++ bfRes.2)

/-- The per-tree loop: accepted specs in order plus accumulated warnings;
`seen` grows by the name of each accepted spec. -/
def treesLoop (dt : String) (bi : Bool) (ntaxa : Nat) (seen : List String) :
    List Entry → List Entry × List String
  | [] => ([], [])
  | t :: ts =>
    match validateOne dt bi ntaxa seen t with
    | (some vt, ws) =>
      let rest := treesLoop dt bi ntaxa (seen ++ [entryName t]) ts
      (vt :: rest.1, ws ++ rest.2)
    | (none, ws) =>
      let rest := treesLoop dt bi ntaxa seen ts
      (rest.1, ws ++ rest.2)

/-- Stages 8-11: tree filtering, duplicate check, per-tree validation,
terminal check, warnings gate, and assembly of the sanitized configuration. -/
def treesFinal (env : VEnv) (yes : Bool) (st : StageState) :
    Except VErr (YVal × List String) :=
  iterElems (mapGetD st.cfgm "trees" (.list [])) >>= fun elems =>
  let fe := filterEntries elems
  let dups := dupsOf (fe.1.map entryName)
  if dups.isEmpty = false then
    .error (.exit 2 ("duplicate tree names are not allowed: " ++ joinSep ", " dups))
  else
    let lp := treesLoop st.datatype st.biAllowed st.headers.length [] fe.1
    if lp.1.isEmpty then .error (.exit 2 "no tree requests survived validation!")
    else
      let ws := st.warnings ++ fe.2 ++ lp.2
      if ws.isEmpty = false ∧ yes = false ∧
          ¬ (pyLower (pyStrip env.resp) = "y" ∨ pyLower (pyStrip env.resp) = "yes") then
        .error (.exit 1 "aborting at user request.")
      else
        let data2 := mapSet (mapSet st.data0 "gap_symbol" (.str st.gap))
          "post_alignment_qc" (.bool st.qc)
        let base :=
          if (mapLookup st.cfgm "data").isSome then mapSet st.cfgm "data" (.map data2)
          else st.cfgm
        .ok (.map (mapSet base "trees" (.list (lp.1.map YVal.map))), ws)

/-- The whole Rule Engine run (`main` of validate_config.py up to writing the
sanitized artifact, whose value is the first component of the result). -/
def runValidate (env : VEnv) (yes : Bool) (raw : YVal) :
    Except VErr (YVal × List String) :=
  stageA env raw >>= treesFinal env yes

/-! ### Toolkit lemmas for the Rule Engine proofs -/

theorem except_bind_ok {ε α β : Type} (x : Except ε α) (f : α → Except ε β) (c : β) :
    (x >>= f) = .ok c ↔ ∃ b, x = .ok b ∧ f b = .ok c := by
  cases x <;> simp [Bind.bind, Except.bind]

theorem except_bind_err {ε α β : Type} (x : Except ε α) (f : α → Except ε β) (e : ε)
    (h : x = .error e) : (x >>= f) = .error e := by
  subst h; rfl

theorem mapLookup_none_iff (m : List (String × YVal)) (k : String) :
    mapLookup m k = none ↔ ∀ p ∈ m, p.1 ≠ k := by
  induction m with
  | nil => simp [mapLookup]
  | cons p rest ih =>
    obtain ⟨k1, v1⟩ := p
    by_cases h : k1 = k
    · subst h; simp [mapLookup]
    · simp [mapLookup, h, ih]

theorem mapUpd_lookup_self (m : List (String × YVal)) (k : String) (v : YVal)
    (h : (mapLookup m k).isSome) : mapLookup (mapUpd k v m) k = some v := by
  induction m with
  | nil => simp [mapLookup] at h
  | cons p rest ih =>
    obtain ⟨k1, v1⟩ := p
    by_cases hk : k1 = k
    · subst hk; simp [mapUpd, mapLookup]
    · simp only [mapUpd, if_neg hk, mapLookup]
      simp only [mapLookup, if_neg hk] at h
      exact ih h

theorem mapUpd_lookup_ne (m : List (String × YVal)) (k : String) (v : YVal)
    (k' : String) (h : k' ≠ k) :
    mapLookup (mapUpd k v m) k' = mapLookup m k' := by
  induction m with
  | nil => simp [mapUpd]
  | cons p rest ih =>
    obtain ⟨k1, v1⟩ := p
    by_cases hk : k1 = k
    · subst hk
      simp only [mapUpd, if_pos rfl, mapLookup]
      rw [if_neg (fun hh : k1 = k' => h hh.symm), if_neg (fun hh : k1 = k' => h hh.symm), ih]
    · simp only [mapUpd, if_neg hk, mapLookup]
      by_cases h2 : k1 = k'
      · simp [h2]
      · simp [h2, ih]

theorem mapLookup_append (m1 m2 : List (String × YVal)) (k : String) :
    mapLookup (m1 ++ m2) k =
      (match mapLookup m1 k with
       | some v => some v
       | none => mapLookup m2 k) := by
  induction m1 with
  | nil => simp [mapLookup]
  | cons p rest ih =>
    obtain ⟨k1, v1⟩ := p
    by_cases h : k1 = k <;> simp [mapLookup, h, ih]

theorem mapSet_lookup_self (m : List (String × YVal)) (k : String) (v : YVal) :
    mapLookup (mapSet m k v) k = some v := by
  unfold mapSet
  by_cases h : (mapLookup m k).isSome
  · rw [if_pos h, mapUpd_lookup_self _ _ _ h]
  · rw [if_neg h, mapLookup_append]
    have h0 : mapLookup m k = none := by
      cases hm : mapLookup m k
      · rfl
      · rw [hm] at h; simp at h
    rw [h0]
    simp [mapLookup]

theorem mapSet_lookup_ne (m : List (String × YVal)) (k : String) (v : YVal)
    (k' : String) (h : k' ≠ k) :
    mapLookup (mapSet m k v) k' = mapLookup m k' := by
  unfold mapSet
  by_cases hs : (mapLookup m k).isSome
  · rw [if_pos hs, mapUpd_lookup_ne _ _ _ _ h]
  · rw [if_neg hs, mapLookup_append]
    cases hm : mapLookup m k'
    · simp only [mapLookup]
      rw [if_neg (fun hh : k = k' => h hh.symm)]
    · simp

theorem mapSet_ne_nil (m : List (String × YVal)) (k : String) (v : YVal) :
    mapSet m k v ≠ [] := by
  unfold mapSet
  by_cases hs : (mapLookup m k).isSome
  · rw [if_pos hs]
    cases m with
    | nil => simp [mapLookup] at hs
    | cons p rest =>
      obtain ⟨k1, v1⟩ := p
      by_cases hk : k1 = k <;> simp [mapUpd, hk]
  · rw [if_neg hs]
    simp

/-- All occurrences of `k` in `m` carry value `v`. -/
def AllVal (m : List (String × YVal)) (k : String) (v : YVal) : Prop :=
  ∀ p ∈ m, p.1 = k → p.2 = v

theorem allVal_mapUpd_self (m : List (String × YVal)) (k : String) (v : YVal) :
    AllVal (mapUpd k v m) k v := by
  induction m with
  | nil => intro p hp; simp [mapUpd] at hp
  | cons q rest ih =>
    obtain ⟨k1, v1⟩ := q
    intro p hp hk
    by_cases h : k1 = k
    · subst h
      simp only [mapUpd, if_pos rfl] at hp
      rcases List.mem_cons.mp hp with rfl | hmem
      · rfl
      · exact ih p hmem hk
    · simp only [mapUpd, if_neg h] at hp
      rcases List.mem_cons.mp hp with rfl | hmem
      · exact absurd hk h
      · exact ih p hmem hk

theorem allVal_mapSet_self (m : List (String × YVal)) (k : String) (v : YVal) :
    AllVal (mapSet m k v) k v := by
  unfold mapSet
  by_cases hs : (mapLookup m k).isSome
  · rw [if_pos hs]; exact allVal_mapUpd_self m k v
  · rw [if_neg hs]
    intro p hp hk
    rcases List.mem_append.mp hp with hm | hm
    · exfalso
      have h0 : mapLookup m k = none := by
        cases hv : mapLookup m k
        · rfl
        · rw [hv] at hs; simp at hs
      exact ((mapLookup_none_iff m k).mp h0) p hm hk
    · have : p = (k, v) := by simpa using hm
      rw [this]

theorem allVal_mapUpd_ne (m : List (String × YVal)) (k : String) (v : YVal)
    (k' : String) (w : YVal) (hne : k ≠ k') (h : AllVal m k' w) :
    AllVal (mapUpd k v m) k' w := by
  induction m with
  | nil => intro p hp; simp [mapUpd] at hp
  | cons q rest ih =>
    obtain ⟨k1, v1⟩ := q
    intro p hp hk'
    have hrest : AllVal rest k' w := fun p hp => h p (.tail _ hp)
    by_cases hq : k1 = k
    · subst hq
      simp only [mapUpd, if_pos rfl] at hp
      rcases List.mem_cons.mp hp with rfl | hmem
      · exact absurd hk' hne
      · exact ih hrest p hmem hk'
    · simp only [mapUpd, if_neg hq] at hp
      rcases List.mem_cons.mp hp with rfl | hmem
      · exact h _ (.head _) hk'
      · exact ih hrest p hmem hk'

theorem allVal_mapSet_ne (m : List (String × YVal)) (k : String) (v : YVal)
    (k' : String) (w : YVal) (hne : k ≠ k') (h : AllVal m k' w) :
    AllVal (mapSet m k v) k' w := by
  unfold mapSet
  by_cases hs : (mapLookup m k).isSome
  · rw [if_pos hs]; exact allVal_mapUpd_ne m k v k' w hne h
  · rw [if_neg hs]
    intro p hp hk'
    rcases List.mem_append.mp hp with hm | hm
    · exact h p hm hk'
    · have : p = (k, v) := by simpa using hm
      rw [this] at hk'
      exact absurd hk' hne

theorem mapUpd_id (m : List (String × YVal)) (k : String) (v : YVal)
    (h : AllVal m k v) : mapUpd k v m = m := by
  induction m with
  | nil => rfl
  | cons q rest ih =>
    obtain ⟨k1, v1⟩ := q
    have hrest : AllVal rest k v := fun p hp => h p (.tail _ hp)
    by_cases hq : k1 = k
    · subst hq
      have hv : v1 = v := h (k1, v1) (.head _) rfl
      subst hv
      simp [mapUpd, ih hrest]
    · simp [mapUpd, hq, ih hrest]

theorem mapSet_id (m : List (String × YVal)) (k : String) (v : YVal)
    (h1 : (mapLookup m k).isSome) (h2 : AllVal m k v) : mapSet m k v = m := by
  unfold mapSet
  rw [if_pos h1]
  exact mapUpd_id m k v h2

theorem dropWhile_dropWhile (p : Char → Bool) (l : List Char) :
    (l.dropWhile p).dropWhile p = l.dropWhile p := by
  induction l with
  | nil => rfl
  | cons a l ih =>
    by_cases h : p a
    · simp [List.dropWhile_cons, h, ih]
    · simp [List.dropWhile_cons, h]

theorem length_dropWhile_le (p : Char → Bool) (l : List Char) :
    (l.dropWhile p).length ≤ l.length := by
  induction l with
  | nil => simp
  | cons a t ih =>
    by_cases hp : p a
    · rw [List.dropWhile_cons, if_pos hp]
      simp only [List.length_cons]
      omega
    · rw [List.dropWhile_cons, if_neg hp]

theorem head_not_of_dropWhile_eq {p : Char → Bool} {a : Char} {t : List Char}
    (h : (a :: t).dropWhile p = a :: t) : p a = false := by
  by_cases hp : p a
  · rw [List.dropWhile_cons, if_pos hp] at h
    have := congrArg List.length h
    have hle := length_dropWhile_le p t
    simp at this
    omega
  · simpa using hp

theorem dropWhile_of_prefix {p : Char → Bool} {l y : List Char}
    (hl : l.dropWhile p = l) (hy : y <+: l) : y.dropWhile p = y := by
  cases y with
  | nil => rfl
  | cons a t =>
    obtain ⟨r, hr⟩ := hy
    have hla : l = a :: (t ++ r) := by rw [← hr]; rfl
    have hpa : p a = false := head_not_of_dropWhile_eq (hla ▸ hl)
    simp [List.dropWhile_cons, hpa]

theorem pyStripChars_idem (l : List Char) : pyStripChars (pyStripChars l) = pyStripChars l := by
  unfold pyStripChars
  set p := isPySpace
  set ld := l.dropWhile p with hld
  have h1 : ld.dropWhile p = ld := dropWhile_dropWhile p l
  set x := ld.reverse.dropWhile p with hx
  have hx_suff : x <:+ ld.reverse := List.dropWhile_suffix p
  have hrpre : x.reverse <+: ld := by
    have h := List.reverse_prefix.mpr hx_suff
    rwa [List.reverse_reverse] at h
  have h2 : (x.reverse).dropWhile p = x.reverse := dropWhile_of_prefix h1 hrpre
  have h3 : x.dropWhile p = x := by
    rw [hx]; exact dropWhile_dropWhile p ld.reverse
  rw [h2, List.reverse_reverse, h3]

theorem pyStrip_idem (s : String) : pyStrip (pyStrip s) = pyStrip s := by
  unfold pyStrip
  exact congrArg String.mk (pyStripChars_idem s.data)

/-- The normalized gap symbol is a fixed point of the normalizer. -/
theorem normalize_gap_fix (v : YVal) :
    normalize_gap_symbol (.str (normalize_gap_symbol v).1) =
      ((normalize_gap_symbol v).1, []) := by
  have hdash : normalize_gap_symbol (.str "-") = ("-", []) := by decide
  cases v with
  | str s =>
    by_cases h : (pyStrip s).length = 1
    · have h1 : (normalize_gap_symbol (.str s)).1 = pyStrip s := by
        simp [normalize_gap_symbol, h]
      rw [h1]
      simp [normalize_gap_symbol, pyStrip_idem, h]
    · have h1 : (normalize_gap_symbol (.str s)).1 = "-" := by
        simp [normalize_gap_symbol, h]
      rw [h1, hdash]
  | nil => exact hdash
  | bool b => exact hdash
  | int n => exact hdash
  | float q => exact hdash
  | list xs => exact hdash
  | map m => exact hdash

theorem specMsg_inj {n a b : String} (h : specMsg n a = specMsg n b) : a = b := by
  have hd := congrArg String.data h
  simp only [specMsg, string_data_append] at hd
  have h1 : "[".data ++ (n.data ++ ("] ".data ++ a.data)) =
      "[".data ++ (n.data ++ ("] ".data ++ b.data)) := by
    simpa [List.append_assoc] using hd
  have h2 := List.append_cancel_left h1
  have h3 := List.append_cancel_left h2
  have h4 := List.append_cancel_left h3
  exact string_ext h4

theorem str_ne_of_head {a b : String} {c d : Char} {ta tb : List Char}
    (ha : a.data = c :: ta) (hb : b.data = d :: tb) (hcd : c ≠ d) : a ≠ b := by
  intro h
  rw [h, hb] at ha
  cases ha
  exact hcd rfl

theorem specMsg_ne_of_head {n a b : String} {c d : Char} {ta tb : List Char}
    (ha : a.data = c :: ta) (hb : b.data = d :: tb) (hcd : c ≠ d) :
    specMsg n a ≠ specMsg n b :=
  fun h => (str_ne_of_head ha hb hcd) (specMsg_inj h)

theorem listContains_iff (pat l : List Char) :
    listContains pat l = true ↔ pat <:+: l := by
  induction l with
  | nil =>
    simp only [listContains, List.isEmpty_iff]
    constructor
    · intro h; rw [h]
    · intro h; exact List.eq_nil_of_infix_nil h
  | cons c cs ih =>
    simp only [listContains, Bool.or_eq_true, ih, List.isPrefixOf_iff_prefix]
    constructor
    · rintro (h | h)
      · exact h.isInfix
      · exact List.infix_cons h
    · intro h
      rcases List.infix_cons_iff.mp h with h | h
      · exact Or.inl h
      · exact Or.inr h

theorem strContains_of_infix {s pat : String} (h : pat.data <:+: s.data) :
    strContains s pat = true := by
  unfold strContains
  exact (listContains_iff _ _).mpr h

/-- Every member of a joined list is a substring of the join. -/
theorem joinSep_mem_infix (sep : String) (l : List String) (a : String) (h : a ∈ l) :
    a.data <:+: (joinSep sep l).data := by
  induction l with
  | nil => cases h
  | cons b rest ih =>
    cases rest with
    | nil =>
      rcases List.mem_singleton.mp h with rfl
      exact List.infix_rfl
    | cons c cs =>
      rcases List.mem_cons.mp h with rfl | hmem
      · show a.data <:+: (a ++ sep ++ joinSep sep (c :: cs)).data
        simp only [string_data_append]
        exact ((List.prefix_append _ _).trans (List.prefix_append _ _)).isInfix
      · have := ih hmem
        show a.data <:+: (b ++ sep ++ joinSep sep (c :: cs)).data
        simp only [string_data_append]
        exact this.trans (List.suffix_append _ _).isInfix

/-! ### Field-level lemmas for the per-tree loop -/

theorem string_append_assoc (a b c : String) : (a ++ b) ++ c = a ++ (b ++ c) :=
  string_ext (by simp [string_data_append, List.append_assoc])

theorem single_key_shape (l : List (String × YVal)) (x : String)
    (h : l.map Prod.fst = [x]) : ∃ v, l = [(x, v)] := by
  cases l with
  | nil => cases h
  | cons p rest =>
    cases rest with
    | nil =>
      simp only [List.map_cons, List.map_nil, List.cons.injEq, and_true] at h
      exact ⟨p.2, by rw [← h]⟩
    | cons q qs => simp at h

theorem modelField_key (dt m name : String) (mv : Option YVal) :
    (modelField dt m name mv).1.map Prod.fst = ["model"] := by
  cases mv with
  | none => rfl
  | some y =>
    cases y with
    | str s =>
      simp only [modelField]
      by_cases h : (pyStrip s).isEmpty = true
      · rw [if_pos h]; rfl
      · rw [if_neg h]
        cases hn : (normalized_model s dt m).2 <;> simp [hn]
    | nil => rfl
    | bool b => rfl
    | int n => rfl
    | float q => rfl
    | list xs => rfl
    | map mm => rfl

theorem modelField_warns (dt m name : String) (mv : Option YVal) :
    (modelField dt m name mv).2 = [] ∨
    (∃ c, (modelField dt m name mv).2 = [specMsg name ("model missing; using default '" ++ c ++
      "' for " ++ pyUpper dt)]) ∨
    (∃ w c, (modelField dt m name mv).2 = [specMsg name (w ++ " '" ++ c ++ "' for " ++
      pyUpper dt)] ∧ ∃ mo, w = "model '" ++ mo ++ "' invalid for " ++ m ++ "; using default") := by
  cases mv with
  | none => exact Or.inr (Or.inl ⟨_, rfl⟩)
  | some y =>
    cases y with
    | str s =>
      simp only [modelField]
      by_cases h : (pyStrip s).isEmpty = true
      · rw [if_pos h]; exact Or.inr (Or.inl ⟨_, rfl⟩)
      · rw [if_neg h]
        cases hn : (normalized_model s dt m).2 with
        | none => simp [hn]
        | some w =>
          simp only [hn]
          refine Or.inr (Or.inr ⟨w, _, rfl, ?_⟩)
          unfold normalized_model at hn
          by_cases h1 : m = "UPGMA" ∨ m = "NJ"
          · rw [if_pos h1] at hn
            by_cases h2 : pyUpper (pyStrip s) ∈ allowedModels m dt
            · rw [if_pos h2] at hn; cases hn
            · rw [if_neg h2] at hn
              simp only [Option.some.injEq] at hn
              exact ⟨s, hn.symm⟩
          · rw [if_neg h1] at hn
            by_cases h3 : m = "ML"
            · rw [if_pos h3] at hn
              by_cases h2 : pyUpper (pyStrip s) ∈ allowedModels m dt
              · rw [if_pos h2] at hn; cases hn
              · rw [if_neg h2] at hn
                simp only [Option.some.injEq] at hn
                exact ⟨s, hn.symm⟩
            · rw [if_neg h3] at hn
              by_cases h4 : m = "BI"
              · rw [if_pos h4] at hn
                by_cases h2 : pyUpper (pyStrip s) ∈ allowedModels m dt
                · rw [if_pos h2] at hn; cases hn
                · rw [if_neg h2] at hn
                  simp only [Option.some.injEq] at hn
                  exact ⟨s, hn.symm⟩
              · rw [if_neg h4] at hn; cases hn
    | nil => exact Or.inr (Or.inl ⟨_, rfl⟩)
    | bool b => exact Or.inr (Or.inl ⟨_, rfl⟩)
    | int n => exact Or.inr (Or.inl ⟨_, rfl⟩)
    | float q => exact Or.inr (Or.inl ⟨_, rfl⟩)
    | list xs => exact Or.inr (Or.inl ⟨_, rfl⟩)
    | map mm => exact Or.inr (Or.inl ⟨_, rfl⟩)

theorem starterField_key (dt m name : String) (sv : Option YVal) (seen : List String) :
    (starterField dt m name sv seen).1.map Prod.fst = ["starter"] := by
  simp only [starterField]
  split_ifs <;> rfl

theorem starterField_warns (dt m name : String) (sv : Option YVal) (seen : List String) :
    (starterField dt m name sv seen).2 = [] ∨
    ∃ st, (starterField dt m name sv seen).2 = [specMsg name ("starter '" ++ st ++
      "' not found among previously defined trees; using 'random'")] := by
  simp only [starterField]
  split_ifs <;> first | exact Or.inl rfl | exact Or.inr ⟨_, rfl⟩

theorem bfField_key (name : String) (bv : Option YVal) :
    (bfField name bv).1.map Prod.fst = ["burninfrac"] := by
  simp only [bfField]
  split
  · split_ifs <;> rfl
  · rfl

theorem bfField_warns (name : String) (bv : Option YVal) :
    (bfField name bv).2 = [] ∨
    ∃ r, (bfField name bv).2 = [specMsg name ("burninfrac '" ++ r ++ "' invalid; using " ++
      ratRepr bfDefault)] := by
  simp only [bfField]
  split
  · split_ifs
    · exact Or.inl rfl
    · exact Or.inr ⟨_, rfl⟩
  · exact Or.inr ⟨_, rfl⟩

theorem starterField_not_found (dt m name : String) (sv : Option YVal) (seen : List String)
    (hnr : pyLower (starterTrim dt m sv) ≠ "random")
    (hns : starterTrim dt m sv ∉ seen) :
    (starterField dt m name sv seen).1 = [("starter", .str "random")] ∧
    (starterTrim dt m sv ≠ "" →
      (starterField dt m name sv seen).2 = [specMsg name ("starter '" ++ starterTrim dt m sv ++
        "' not found among previously defined trees; using 'random'")]) := by
  simp only [starterField]
  rw [if_neg hnr, if_neg hns]
  by_cases he : starterTrim dt m sv = ""
  · rw [if_pos (show (starterTrim dt m sv).isEmpty = true by rw [he]; rfl)]
    exact ⟨rfl, fun h => absurd he h⟩
  · rw [if_neg (show ¬ (starterTrim dt m sv).isEmpty = true from
      fun hh => he ((String.isEmpty_iff _).mp hh))]
    exact ⟨rfl, fun _ => rfl⟩

theorem fst_eq_of_keys {l : List (String × YVal)} {x : String}
    (h : l.map Prod.fst = [x]) : ∀ p ∈ l, p.1 = x := by
  intro p hp
  have hm : p.1 ∈ l.map Prod.fst := List.mem_map_of_mem _ hp
  rw [h] at hm
  simpa using hm

theorem mapLookup_append_of_none (m1 m2 : List (String × YVal)) (k : String)
    (h : mapLookup m1 k = none) : mapLookup (m1 ++ m2) k = mapLookup m2 k := by
  rw [mapLookup_append, h]

theorem mapLookup_none_of_keys {l : List (String × YVal)} {x k : String}
    (h : l.map Prod.fst = [x]) (hne : x ≠ k) : mapLookup l k = none :=
  (mapLookup_none_iff l k).mpr (fun p hp => by rw [fst_eq_of_keys h p hp]; exact hne)

/-- Unfolding of an accepted per-tree validation. -/
theorem validateOne_accept (dt : String) (bi : Bool) (ntaxa : Nat) (seen : List String)
    (t : Entry) (m : String)
    (hme : mapLookup t "method" = some (.str m))
    (hm5 : m = "UPGMA" ∨ m = "NJ" ∨ m = "MP" ∨ m = "ML" ∨ m = "BI")
    (hbi : ¬(m = "BI" ∧ bi = false)) :
    validateOne dt bi ntaxa seen t =
      (some ([("name", .str (entryName t)), ("method", .str m)] ++
        (if "model" ∈ allowed_keys_by_method m then
          (modelField dt m (entryName t) (mapLookup t "model")).1 else []) ++
        (if "starter" ∈ allowed_keys_by_method m then
          (starterField dt m (entryName t) (mapLookup t "starter") seen).1 else []) ++
        (if "burninfrac" ∈ allowed_keys_by_method m then
          (bfField (entryName t) (mapLookup t "burninfrac")).1 else [])),
       extrasWarn t m (entryName t) ++
        (if "model" ∈ allowed_keys_by_method m then
          (modelField dt m (entryName t) (mapLookup t "model")).2 else []) ++
        (if "starter" ∈ allowed_keys_by_method m then
          (starterField dt m (entryName t) (mapLookup t "starter") seen).2 else []) ++
        (if "burninfrac" ∈ allowed_keys_by_method m then
          (bfField (entryName t) (mapLookup t "burninfrac")).2 else [])) := by
  simp only [validateOne, hme]
  rw [if_pos hm5]
  dsimp only
  rw [if_neg hbi]
  split_ifs <;> rfl

theorem mapLookup_append_of_some (m1 m2 : List (String × YVal)) (k : String) (v : YVal)
    (h : mapLookup m1 k = some v) : mapLookup (m1 ++ m2) k = some v := by
  rw [mapLookup_append, h]

/-- Lookup of "starter" in an accepted spec skips the name/method header and
the model part. -/
theorem vtLookup_starter (nmv mev : YVal) (P1 P2 P3 : List (String × YVal)) (v : YVal)
    (h1 : mapLookup P1 "starter" = none)
    (h2 : mapLookup P2 "starter" = some v) :
    mapLookup ((([("name", nmv), ("method", mev)] ++ P1) ++ P2) ++ P3) "starter" = some v := by
  apply mapLookup_append_of_some
  have hhead : mapLookup [("name", nmv), ("method", mev)] "starter" = none := rfl
  have ha : mapLookup ([("name", nmv), ("method", mev)] ++ P1) "starter" = none := by
    rw [mapLookup_append_of_none _ _ _ hhead]; exact h1
  rw [mapLookup_append_of_none _ _ _ ha]
  exact h2

/-- Lookup of "model" in an accepted spec hits the model part. -/
theorem vtLookup_model (nmv mev : YVal) (P1 P2 P3 : List (String × YVal)) (v : YVal)
    (h1 : mapLookup P1 "model" = some v) :
    mapLookup ((([("name", nmv), ("method", mev)] ++ P1) ++ P2) ++ P3) "model" = some v := by
  apply mapLookup_append_of_some
  apply mapLookup_append_of_some
  have hhead : mapLookup [("name", nmv), ("method", mev)] "model" = none := rfl
  rw [mapLookup_append_of_none _ _ _ hhead]
  exact h1

/-- C2 counterexample: a spec whose `starter` trims to the empty string (here
a whitespace-only starter) is neither "random" nor a previously accepted
name, yet it is silently normalized to "random" with NO warning appended —
the claim requires a warning for every such spec. -/
theorem c2_counterexample :
    validateOne "dna" true 5 []
        [("name", .str "t1"), ("method", .str "MP"), ("starter", .str " ")] =
      (some [("name", .str "t1"), ("method", .str "MP"), ("starter", .str "random")],
       []) := rfl

/-- C2 (amended): for every tree spec (with a starter-using method, i.e. MP,
ML or BI, and not dropped by the Bayesian guard) whose starter field after
trimming is neither "random" (case-insensitively) nor the name of an
already-accepted tree, the spec is still accepted (no hard error), its
starter is set to the literal "random" (so no reference, hence no cycle, is
admitted), and a warning is appended provided the trimmed starter is a
non-empty string; empty or non-string starters fall back silently. -/
theorem c2_starter_fallback (dt : String) (bi : Bool) (ntaxa : Nat) (seen : List String)
    (t : Entry) (m : String)
    (hme : mapLookup t "method" = some (.str m))
    (hm : m = "MP" ∨ m = "ML" ∨ m = "BI")
    (hbi : m = "BI" → bi = true)
    (hnr : pyLower (starterTrim dt m (mapLookup t "starter")) ≠ "random")
    (hns : starterTrim dt m (mapLookup t "starter") ∉ seen) :
    ∃ vt ws, validateOne dt bi ntaxa seen t = (some vt, ws) ∧
      mapLookup vt "starter" = some (.str "random") ∧
      (starterTrim dt m (mapLookup t "starter") ≠ "" →
        specMsg (entryName t) ("starter '" ++ starterTrim dt m (mapLookup t "starter") ++
          "' not found among previously defined trees; using 'random'") ∈ ws) := by
  have hm5 : m = "UPGMA" ∨ m = "NJ" ∨ m = "MP" ∨ m = "ML" ∨ m = "BI" := by
    rcases hm with rfl | rfl | rfl
    · exact Or.inr (Or.inr (Or.inl rfl))
    · exact Or.inr (Or.inr (Or.inr (Or.inl rfl)))
    · exact Or.inr (Or.inr (Or.inr (Or.inr rfl)))
  have hbi' : ¬(m = "BI" ∧ bi = false) := by
    rintro ⟨rfl, hb⟩
    rw [hbi rfl] at hb
    cases hb
  have hacc := validateOne_accept dt bi ntaxa seen t m hme hm5 hbi'
  obtain ⟨hst1, hst2⟩ := starterField_not_found dt m (entryName t)
    (mapLookup t "starter") seen hnr hns
  refine ⟨_, _, hacc, ?_, ?_⟩
  · rcases hm with rfl | rfl | rfl
    · rw [if_neg (show ¬ ("model" ∈ allowed_keys_by_method "MP") by decide),
        if_pos (show "starter" ∈ allowed_keys_by_method "MP" by decide),
        if_neg (show ¬ ("burninfrac" ∈ allowed_keys_by_method "MP") by decide), hst1]
      exact vtLookup_starter _ _ [] _ [] _ rfl rfl
    · rw [if_pos (show "model" ∈ allowed_keys_by_method "ML" by decide),
        if_pos (show "starter" ∈ allowed_keys_by_method "ML" by decide),
        if_neg (show ¬ ("burninfrac" ∈ allowed_keys_by_method "ML") by decide), hst1]
      exact vtLookup_starter _ _ _ _ [] _
        (mapLookup_none_of_keys (modelField_key dt "ML" (entryName t)
          (mapLookup t "model")) (by decide)) rfl
    · rw [if_pos (show "model" ∈ allowed_keys_by_method "BI" by decide),
        if_pos (show "starter" ∈ allowed_keys_by_method "BI" by decide),
        if_pos (show "burninfrac" ∈ allowed_keys_by_method "BI" by decide), hst1]
      exact vtLookup_starter _ _ _ _ _ _
        (mapLookup_none_of_keys (modelField_key dt "BI" (entryName t)
          (mapLookup t "model")) (by decide)) rfl
  · intro hne
    have hw := hst2 hne
    rcases hm with rfl | rfl | rfl <;>
    · rw [if_pos (show "starter" ∈ allowed_keys_by_method _ by decide), hw]
      exact List.mem_append.mpr (Or.inl (List.mem_append.mpr (Or.inr (by simp))))

/-- Witness for C2 at a concrete input: an MP spec with unknown starter
"zzz" among no previously accepted trees is accepted with starter "random"
and the not-found warning. -/
theorem c2_witness :
    ∃ vt ws,
      validateOne "dna" true 5 []
          [("name", .str "t2"), ("method", .str "MP"), ("starter", .str "zzz")] =
        (some vt, ws) ∧
      mapLookup vt "starter" = some (.str "random") ∧
      (starterTrim "dna" "MP" (mapLookup [("name", YVal.str "t2"), ("method", YVal.str "MP"),
          ("starter", YVal.str "zzz")] "starter") ≠ "" →
        specMsg (entryName [("name", YVal.str "t2"), ("method", YVal.str "MP"),
            ("starter", YVal.str "zzz")])
          ("starter '" ++ starterTrim "dna" "MP" (mapLookup [("name", YVal.str "t2"),
            ("method", YVal.str "MP"), ("starter", YVal.str "zzz")] "starter") ++
            "' not found among previously defined trees; using 'random'") ∈ ws) :=
  c2_starter_fallback "dna" true 5 []
    [("name", .str "t2"), ("method", .str "MP"), ("starter", .str "zzz")] "MP"
    rfl (Or.inl rfl) (fun h => absurd h (by decide)) (by decide) (by decide)

theorem normalized_model_invalid (s dt m : String)
    (hm : m = "UPGMA" ∨ m = "NJ" ∨ m = "ML" ∨ m = "BI")
    (hinv : pyUpper (pyStrip s) ∉ allowedModels m dt) :
    normalized_model s dt m = (defaultModelStr dt m,
      some ("model '" ++ s ++ "' invalid for " ++ m ++ "; using default")) := by
  rcases hm with rfl | rfl | rfl | rfl <;> simp [normalized_model, hinv]

theorem modelField_invalid (dt m name s : String)
    (hblank : (pyStrip s).isEmpty = false)
    (hm : m = "UPGMA" ∨ m = "NJ" ∨ m = "ML" ∨ m = "BI")
    (hinv : pyUpper (pyStrip s) ∉ allowedModels m dt) :
    modelField dt m name (some (.str s)) =
      ([("model", optStrY (defaultModelStr dt m))],
       [specMsg name (("model '" ++ s ++ "' invalid for " ++ m ++ "; using default") ++
         " '" ++ pyStrOfOpt (default_for dt m "model") ++ "' for " ++ pyUpper dt)]) := by
  simp only [modelField]
  rw [if_neg (show ¬ (pyStrip s).isEmpty = true by rw [hblank]; simp),
    normalized_model_invalid s dt m hm hinv]

theorem defaultModelStr_isSome (dt m : String)
    (hdt : dt = "dna" ∨ dt = "aa")
    (hm : m = "UPGMA" ∨ m = "NJ" ∨ m = "ML" ∨ m = "BI") :
    ∃ D, defaultModelStr dt m = some D := by
  rcases hdt with rfl | rfl <;> rcases hm with rfl | rfl | rfl | rfl <;> exact ⟨_, rfl⟩

theorem count_singleton_ne {a b : String} (h : a ≠ b) : List.count a [b] = 0 :=
  List.count_eq_zero.mpr (by simpa using h)

/-- A Bayesian spec is dropped (with the skip warning) when Bayesian trees
are disallowed. -/
theorem validateOne_bi_drop (dt : String) (ntaxa : Nat) (seen : List String) (t : Entry)
    (hme : mapLookup t "method" = some (.str "BI")) :
    validateOne dt false ntaxa seen t =
      (none, [specMsg (entryName t) ("BI requires ≥4 taxa; skipping this tree because only " ++
        natStr ntaxa ++ " were found.")]) := by
  simp only [validateOne, hme]
  rw [if_pos (show ("BI":String) = "UPGMA" ∨ ("BI":String) = "NJ" ∨ ("BI":String) = "MP" ∨
    ("BI":String) = "ML" ∨ True from Or.inr (Or.inr (Or.inr (Or.inr trivial))))]
  dsimp only
  rw [if_pos ⟨rfl, trivial⟩]

theorem model_mem_keys (m : String)
    (hm : m = "UPGMA" ∨ m = "NJ" ∨ m = "ML" ∨ m = "BI") :
    "model" ∈ allowed_keys_by_method m := by
  rcases hm with rfl | rfl | rfl | rfl <;> decide

/-- C7: for every accepted tree spec with a model-using method whose model
string, after trimming and uppercasing, is not in the fixed allowed model set
for its method and datatype, the accepted spec's model equals the method- and
datatype-specific default, and exactly one warning naming the offending model
value is appended for that spec. -/
theorem c7_invalid_model (dt : String) (bi : Bool) (ntaxa : Nat) (seen : List String)
    (t : Entry) (m mo : String) (vt : Entry) (ws : List String)
    (hdt : dt = "dna" ∨ dt = "aa")
    (hme : mapLookup t "method" = some (.str m))
    (hm : m = "UPGMA" ∨ m = "NJ" ∨ m = "ML" ∨ m = "BI")
    (hmo : mapLookup t "model" = some (.str mo))
    (hblank : (pyStrip mo).isEmpty = false)
    (hinv : pyUpper (pyStrip mo) ∉ allowedModels m dt)
    (hacc : validateOne dt bi ntaxa seen t = (some vt, ws)) :
    (∃ D, defaultModelStr dt m = some D ∧ mapLookup vt "model" = some (.str D)) ∧
    ws.count (specMsg (entryName t) (("model '" ++ mo ++ "' invalid for " ++ m ++
      "; using default") ++ " '" ++ pyStrOfOpt (default_for dt m "model") ++ "' for " ++
      pyUpper dt)) = 1 := by
  have hm5 : m = "UPGMA" ∨ m = "NJ" ∨ m = "MP" ∨ m = "ML" ∨ m = "BI" := by
    rcases hm with rfl | rfl | rfl | rfl
    · exact Or.inl rfl
    · exact Or.inr (Or.inl rfl)
    · exact Or.inr (Or.inr (Or.inr (Or.inl rfl)))
    · exact Or.inr (Or.inr (Or.inr (Or.inr rfl)))
  have hbi' : ¬(m = "BI" ∧ bi = false) := by
    rintro ⟨rfl, hb⟩
    subst hb
    rw [validateOne_bi_drop dt ntaxa seen t hme] at hacc
    simp at hacc
  rw [validateOne_accept dt bi ntaxa seen t m hme hm5 hbi'] at hacc
  have h1 : some ([("name", YVal.str (entryName t)), ("method", YVal.str m)] ++
      (if "model" ∈ allowed_keys_by_method m then
        (modelField dt m (entryName t) (mapLookup t "model")).1 else []) ++
      (if "starter" ∈ allowed_keys_by_method m then
        (starterField dt m (entryName t) (mapLookup t "starter") seen).1 else []) ++
      (if "burninfrac" ∈ allowed_keys_by_method m then
        (bfField (entryName t) (mapLookup t "burninfrac")).1 else [])) = some vt :=
    congrArg Prod.fst hacc
  have h2 := congrArg Prod.snd hacc
  simp only at h2
  have hvt := Option.some.inj h1
  have hmf := modelField_invalid dt m (entryName t) mo hblank hm hinv
  rw [hmo] at hvt h2
  rw [if_pos (model_mem_keys m hm), hmf] at hvt h2
  obtain ⟨D, hD⟩ := defaultModelStr_isSome dt m hdt hm
  constructor
  · refine ⟨D, hD, ?_⟩
    rw [← hvt]
    apply vtLookup_model
    show mapLookup [("model", optStrY (defaultModelStr dt m))] "model" = _
    rw [hD]
    rfl
  · rw [← h2]
    rw [List.count_append, List.count_append, List.count_append]
    have hcoreM : ∀ x : String, (("model '" ++ mo ++ "' invalid for " ++ m ++
        "; using default") ++ " '" ++ x ++ "' for " ++ pyUpper dt).data =
        'm' :: ("odel '" ++ mo ++ "' invalid for " ++ m ++ "; using default" ++ " '" ++ x ++
          "' for " ++ pyUpper dt).data := fun x => rfl
    have he : (extrasWarn t m (entryName t)).count (specMsg (entryName t)
        (("model '" ++ mo ++ "' invalid for " ++ m ++ "; using default") ++ " '" ++
          pyStrOfOpt (default_for dt m "model") ++ "' for " ++ pyUpper dt)) = 0 := by
      unfold extrasWarn
      by_cases hc : (extrasOf t m).isEmpty = true
      · rw [if_pos hc]; rfl
      · rw [if_neg hc]
        exact count_singleton_ne (specMsg_ne_of_head (hcoreM _) rfl (by decide))
    have hmcount : (([("model", optStrY (defaultModelStr dt m))],
        [specMsg (entryName t) (("model '" ++ mo ++ "' invalid for " ++ m ++
          "; using default") ++ " '" ++ pyStrOfOpt (default_for dt m "model") ++ "' for " ++
          pyUpper dt)]).2).count (specMsg (entryName t)
        (("model '" ++ mo ++ "' invalid for " ++ m ++ "; using default") ++ " '" ++
          pyStrOfOpt (default_for dt m "model") ++ "' for " ++ pyUpper dt)) = 1 := by
      simp
    have hs : (if "starter" ∈ allowed_keys_by_method m then
        (starterField dt m (entryName t) (mapLookup t "starter") seen).2 else []).count
        (specMsg (entryName t) (("model '" ++ mo ++ "' invalid for " ++ m ++
          "; using default") ++ " '" ++ pyStrOfOpt (default_for dt m "model") ++ "' for " ++
          pyUpper dt)) = 0 := by
      by_cases hc : "starter" ∈ allowed_keys_by_method m
      · rw [if_pos hc]
        rcases starterField_warns dt m (entryName t) (mapLookup t "starter") seen with
          hw | ⟨st', hw⟩
        · rw [hw]; rfl
        · rw [hw]
          exact count_singleton_ne (specMsg_ne_of_head (hcoreM _) rfl (by decide))
      · rw [if_neg hc]; rfl
    have hb : (if "burninfrac" ∈ allowed_keys_by_method m then
        (bfField (entryName t) (mapLookup t "burninfrac")).2 else []).count
        (specMsg (entryName t) (("model '" ++ mo ++ "' invalid for " ++ m ++
          "; using default") ++ " '" ++ pyStrOfOpt (default_for dt m "model") ++ "' for " ++
          pyUpper dt)) = 0 := by
      by_cases hc : "burninfrac" ∈ allowed_keys_by_method m
      · rw [if_pos hc]
        rcases bfField_warns (entryName t) (mapLookup t "burninfrac") with hw | ⟨r, hw⟩
        · rw [hw]; rfl
        · rw [hw]
          exact count_singleton_ne (specMsg_ne_of_head (hcoreM _) rfl (by decide))
      · rw [if_neg hc]; rfl
    rw [he, hmcount, hs, hb]

/-- Witness for C7: an NJ/dna spec with model "BOGUS" is accepted with the
default model JC69 and exactly one invalid-model warning. -/
theorem c7_witness :
    (∃ D, defaultModelStr "dna" "NJ" = some D ∧
      mapLookup [("name", YVal.str "t1"), ("method", YVal.str "NJ"),
        ("model", YVal.str "JC69")] "model" = some (.str D)) ∧
    (["[t1] model 'BOGUS' invalid for NJ; using default 'JC69' for DNA"].count
      (specMsg (entryName [("name", YVal.str "t1"), ("method", YVal.str "NJ"),
        ("model", YVal.str "BOGUS")]) (("model '" ++ "BOGUS" ++ "' invalid for " ++ "NJ" ++
        "; using default") ++ " '" ++ pyStrOfOpt (default_for "dna" "NJ" "model") ++
        "' for " ++ pyUpper "dna"))) = 1 :=
  c7_invalid_model "dna" true 4 []
    [("name", .str "t1"), ("method", .str "NJ"), ("model", .str "BOGUS")] "NJ" "BOGUS"
    [("name", .str "t1"), ("method", .str "NJ"), ("model", .str "JC69")]
    ["[t1] model 'BOGUS' invalid for NJ; using default 'JC69' for DNA"]
    (Or.inl rfl) rfl (Or.inr (Or.inl rfl)) rfl rfl (by decide) rfl

theorem except_ok_bind {ε α β : Type} (b : α) (f : α → Except ε β) :
    (Except.ok b >>= f : Except ε β) = f b := rfl

/-- A name counted at least twice appears in the duplicate list. -/
theorem mem_dupsOf (names : List String) (n : String) (h : 1 < names.count n) :
    n ∈ dupsOf names := by
  have hn : n ∈ names := by
    by_contra hn
    rw [List.count_eq_zero_of_not_mem hn] at h
    omega
  unfold dupsOf
  rw [List.mem_filter]
  exact ⟨(mem_firstDedup _ _).mpr hn, decide_eq_true h⟩

/-- C9: when two surviving tree entries share a name, validation stops with
the exit-2 duplicate-names error, whose message contains the duplicated
name, and which depends only on the entry names (never on methods or any
per-tree validation). -/
theorem c9_duplicate_names (env : VEnv) (yes : Bool) (raw : YVal) (st : StageState)
    (elems : List YVal) (n : String)
    (hA : stageA env raw = .ok st)
    (hit : iterElems (mapGetD st.cfgm "trees" (.list [])) = .ok elems)
    (hdup : 1 < ((filterEntries elems).1.map entryName).count n) :
    runValidate env yes raw = .error (.exit 2 ("duplicate tree names are not allowed: " ++
      joinSep ", " (dupsOf ((filterEntries elems).1.map entryName)))) ∧
    strContains ("duplicate tree names are not allowed: " ++
      joinSep ", " (dupsOf ((filterEntries elems).1.map entryName))) n = true := by
  have hmem : n ∈ dupsOf ((filterEntries elems).1.map entryName) := mem_dupsOf _ _ hdup
  have hne : (dupsOf ((filterEntries elems).1.map entryName)).isEmpty = false := by
    cases hd : dupsOf ((filterEntries elems).1.map entryName) with
    | nil => rw [hd] at hmem; cases hmem
    | cons a l => rfl
  constructor
  · rw [runValidate, hA, except_ok_bind]
    rw [treesFinal, hit, except_ok_bind]
    simp only
    rw [if_pos hne]
  · apply strContains_of_infix
    have h1 := joinSep_mem_infix ", " _ n hmem
    refine h1.trans ?_
    rw [string_data_append]
    exact (List.suffix_append _ _).isInfix

/-- Witness for C9: two tree entries both named "t1" (one NJ, one ML) stop
validation with the duplicate-names exit-2 error naming "t1". -/
theorem c9_witness :
    runValidate
      { fs := fun p => if p = "a.fa" then
          some [">A", "ACGT", ">B", "AAAA", ">C", "CCCC", ">D", "GGGG"] else none,
        resp := "" } true
      (.map [("data", .map [("fasta", .str "a.fa"), ("datatype", .str "dna")]),
             ("trees", .list [.map [("name", .str "t1"), ("method", .str "NJ")],
                              .map [("name", .str "t1"), ("method", .str "ML")]])]) =
      .error (.exit 2 ("duplicate tree names are not allowed: " ++
        joinSep ", " (dupsOf ((filterEntries
          [.map [("name", .str "t1"), ("method", .str "NJ")],
           .map [("name", .str "t1"), ("method", .str "ML")]]).1.map entryName)))) ∧
    strContains ("duplicate tree names are not allowed: " ++
      joinSep ", " (dupsOf ((filterEntries
        [.map [("name", .str "t1"), ("method", .str "NJ")],
         .map [("name", .str "t1"), ("method", .str "ML")]]).1.map entryName))) "t1" =
      true :=
  c9_duplicate_names
    { fs := fun p => if p = "a.fa" then
        some [">A", "ACGT", ">B", "AAAA", ">C", "CCCC", ">D", "GGGG"] else none,
      resp := "" } true
    (.map [("data", .map [("fasta", .str "a.fa"), ("datatype", .str "dna")]),
           ("trees", .list [.map [("name", .str "t1"), ("method", .str "NJ")],
                            .map [("name", .str "t1"), ("method", .str "ML")]])])
    { cfgm := [("data", .map [("fasta", .str "a.fa"), ("datatype", .str "dna")]),
               ("trees", .list [.map [("name", .str "t1"), ("method", .str "NJ")],
                                .map [("name", .str "t1"), ("method", .str "ML")]])],
      data0 := [("fasta", .str "a.fa"), ("datatype", .str "dna")],
      gap := "-", qc := false,
      recs := [("A", "ACGT"), ("B", "AAAA"), ("C", "CCCC"), ("D", "GGGG")],
      headers := ["A", "B", "C", "D"],
      biAllowed := true, datatype := "dna", warnings := [] }
    [.map [("name", .str "t1"), ("method", .str "NJ")],
     .map [("name", .str "t1"), ("method", .str "ML")]] "t1"
    rfl rfl (by decide)

/-- C6: with fewer than 4 aligned records the stage state carries the
Bayesian-skip warning and disallows BI; every BI spec is then dropped with a
warning instead of a hard error; and if the loop accepts nothing, validation
stops with the no-surviving-trees hard error. -/
theorem c6_bi_skip (env : VEnv) (raw : YVal) (st : StageState) (yes : Bool)
    (t : Entry) (ntaxa : Nat) (seen : List String) (elems : List YVal)
    (hA : stageA env raw = .ok st)
    (hlt : st.recs.length < 4)
    (hme : mapLookup t "method" = some (.str "BI"))
    (hit : iterElems (mapGetD st.cfgm "trees" (.list [])) = .ok elems)
    (hdups : (dupsOf ((filterEntries elems).1.map entryName)).isEmpty = true)
    (hloop : (treesLoop st.datatype st.biAllowed st.headers.length []
      (filterEntries elems).1).1 = []) :
    (BI_SKIP_WARNING ∈ st.warnings ∧ st.biAllowed = false) ∧
    validateOne st.datatype st.biAllowed ntaxa seen t =
      (none, [specMsg (entryName t) ("BI requires ≥4 taxa; skipping this tree because only " ++
        natStr ntaxa ++ " were found.")]) ∧
    runValidate env yes raw = .error (.exit 2 "no tree requests survived validation!") := by
  have hA0 := hA
  rw [stageA] at hA
  rw [except_bind_ok] at hA
  obtain ⟨cfgm, hc, hA⟩ := hA
  rw [except_bind_ok] at hA
  obtain ⟨rt, hrt, hA⟩ := hA
  rw [except_bind_ok] at hA
  obtain ⟨data0, hd0, hA⟩ := hA
  rw [except_bind_ok] at hA
  obtain ⟨fasta, hf, hA⟩ := hA
  rw [except_bind_ok] at hA
  obtain ⟨recs, hrecs, hA⟩ := hA
  rw [except_bind_ok] at hA
  obtain ⟨dtl, hdt, hA⟩ := hA
  rw [except_bind_ok] at hA
  obtain ⟨u, hu, hA⟩ := hA
  rw [except_bind_ok] at hA
  obtain ⟨mantel, hmant, hA⟩ := hA
  have hst := Except.ok.inj hA
  subst hst
  dsimp only at hlt hit hdups hloop ⊢
  have hlt' : (recs.map (·.1)).length < 4 := by
    rw [List.length_map]; exact hlt
  have hbi : (!decide ((recs.map (·.1)).length < 4)) = false := by
    rw [decide_eq_true hlt', Bool.not_true]
  refine ⟨⟨?_, hbi⟩, ?_, ?_⟩
  · rw [if_pos hlt']
    simp [List.mem_append, BI_SKIP_WARNING]
  · rw [hbi]
    exact validateOne_bi_drop dtl ntaxa seen t hme
  · rw [runValidate, hA0, except_ok_bind, treesFinal]
    dsimp only
    rw [hit, except_ok_bind]
    rw [if_neg (show ¬((dupsOf ((filterEntries elems).1.map entryName)).isEmpty = false) from
      by rw [hdups]; exact fun h => Bool.noConfusion h)]
    rw [if_pos (show ((treesLoop dtl (!decide ((recs.map (·.1)).length < 4))
      (recs.map (·.1)).length [] (filterEntries elems).1).1.isEmpty = true) from
      by rw [hloop]; rfl)]

/-- Witness for C6: a 3-taxon alignment with a single BI tree request yields
the Bayesian-skip warning, drops the BI spec with a warning, and hard-errors
because no tree requests survive. -/
theorem c6_witness :
    (BI_SKIP_WARNING ∈ (StageState.warnings
      { cfgm := [("data", .map [("fasta", .str "a.fa"), ("datatype", .str "dna")]),
                 ("trees", .list [.map [("name", .str "t1"), ("method", .str "BI")]])],
        data0 := [("fasta", .str "a.fa"), ("datatype", .str "dna")],
        gap := "-", qc := false,
        recs := [("A", "ACGT"), ("B", "AAAA"), ("C", "CCCC")],
        headers := ["A", "B", "C"],
        biAllowed := false, datatype := "dna",
        warnings := [BI_SKIP_WARNING] }) ∧
      StageState.biAllowed
      { cfgm := [("data", .map [("fasta", .str "a.fa"), ("datatype", .str "dna")]),
                 ("trees", .list [.map [("name", .str "t1"), ("method", .str "BI")]])],
        data0 := [("fasta", .str "a.fa"), ("datatype", .str "dna")],
        gap := "-", qc := false,
        recs := [("A", "ACGT"), ("B", "AAAA"), ("C", "CCCC")],
        headers := ["A", "B", "C"],
        biAllowed := false, datatype := "dna",
        warnings := [BI_SKIP_WARNING] } = false) ∧
    validateOne "dna" false 3 [] [("name", .str "t1"), ("method", .str "BI")] =
      (none, [specMsg (entryName [("name", .str "t1"), ("method", .str "BI")])
        ("BI requires ≥4 taxa; skipping this tree because only " ++ natStr 3 ++
          " were found.")]) ∧
    runValidate
      { fs := fun p => if p = "a.fa" then
          some [">A", "ACGT", ">B", "AAAA", ">C", "CCCC"] else none,
        resp := "" } true
      (.map [("data", .map [("fasta", .str "a.fa"), ("datatype", .str "dna")]),
             ("trees", .list [.map [("name", .str "t1"), ("method", .str "BI")]])]) =
      .error (.exit 2 "no tree requests survived validation!") :=
  c6_bi_skip
    { fs := fun p => if p = "a.fa" then
        some [">A", "ACGT", ">B", "AAAA", ">C", "CCCC"] else none,
      resp := "" }
    (.map [("data", .map [("fasta", .str "a.fa"), ("datatype", .str "dna")]),
           ("trees", .list [.map [("name", .str "t1"), ("method", .str "BI")]])])
    { cfgm := [("data", .map [("fasta", .str "a.fa"), ("datatype", .str "dna")]),
               ("trees", .list [.map [("name", .str "t1"), ("method", .str "BI")]])],
      data0 := [("fasta", .str "a.fa"), ("datatype", .str "dna")],
      gap := "-", qc := false,
      recs := [("A", "ACGT"), ("B", "AAAA"), ("C", "CCCC")],
      headers := ["A", "B", "C"],
      biAllowed := false, datatype := "dna",
      warnings := [BI_SKIP_WARNING] }
    true [("name", .str "t1"), ("method", .str "BI")] 3 []
    [.map [("name", .str "t1"), ("method", .str "BI")]]
    rfl (by decide) rfl rfl rfl rfl

theorem asMapD_map (m : List (String × YVal)) : asMapD (some (.map m)) = .ok m := rfl

theorem iterElems_list (xs : List YVal) : iterElems (.list xs) = .ok xs := rfl

theorem ite_and_false {α : Sort u} {c1 c3 : Prop} {x y : α}
    [Decidable (c1 ∧ true = false ∧ c3)] :
    (if c1 ∧ true = false ∧ c3 then x else y) = y :=
  if_neg (fun hc => absurd hc.2.1 (by decide))

theorem requireDatatype_ok (v : Option YVal) (d : String)
    (h : requireDatatype v = .ok d) : d = "dna" ∨ d = "aa" := by
  cases v with
  | none => cases h
  | some y =>
    cases y with
    | str s =>
      unfold requireDatatype at h
      dsimp only at h
      by_cases hc : pyLower s = "dna" ∨ pyLower s = "aa"
      · rw [if_pos hc] at h
        rcases hc with hc | hc
        · exact Or.inl ((Except.ok.inj h).symm.trans hc)
        · exact Or.inr ((Except.ok.inj h).symm.trans hc)
      · rw [if_neg hc] at h; cases h
    | nil => cases h
    | bool b => cases h
    | int n => cases h
    | float q => cases h
    | list xs => cases h
    | map mm => cases h

/-- Every member of the fixed allowed-model sets is trim- and upper-fixed and
non-empty. -/
theorem allowedModels_good (m dt D : String)
    (hm : m = "UPGMA" ∨ m = "NJ" ∨ m = "ML" ∨ m = "BI")
    (hD : D ∈ allowedModels m dt) :
    pyStrip D = D ∧ pyUpper D = D ∧ D.isEmpty = false := by
  rcases hm with rfl | rfl | rfl | rfl
  · unfold allowedModels at hD
    rw [if_pos (Or.inl rfl)] at hD
    by_cases hdt : dt = "dna"
    · rw [if_pos hdt] at hD
      simp only [List.mem_cons, List.not_mem_nil, or_false] at hD
      rcases hD with rfl | rfl | rfl | rfl | rfl | rfl <;> exact ⟨by decide, by decide, by decide⟩
    · rw [if_neg hdt] at hD
      simp only [List.mem_cons, List.not_mem_nil, or_false] at hD
      rcases hD with rfl | rfl | rfl | rfl <;> exact ⟨by decide, by decide, by decide⟩
  · unfold allowedModels at hD
    rw [if_pos (Or.inr rfl)] at hD
    by_cases hdt : dt = "dna"
    · rw [if_pos hdt] at hD
      simp only [List.mem_cons, List.not_mem_nil, or_false] at hD
      rcases hD with rfl | rfl | rfl | rfl | rfl | rfl <;> exact ⟨by decide, by decide, by decide⟩
    · rw [if_neg hdt] at hD
      simp only [List.mem_cons, List.not_mem_nil, or_false] at hD
      rcases hD with rfl | rfl | rfl | rfl <;> exact ⟨by decide, by decide, by decide⟩
  · unfold allowedModels at hD
    rw [if_neg (by decide), if_pos rfl] at hD
    simp only [List.mem_cons, List.not_mem_nil, or_false] at hD
    rcases hD with rfl | rfl | rfl | rfl | rfl | rfl <;> exact ⟨by decide, by decide, by decide⟩
  · unfold allowedModels at hD
    rw [if_neg (by decide), if_neg (by decide), if_pos rfl] at hD
    simp only [List.mem_cons, List.not_mem_nil, or_false] at hD
    rcases hD with rfl | rfl | rfl | rfl <;> exact ⟨by decide, by decide, by decide⟩

/-- The method/datatype default model is an allowed, trim- and upper-fixed,
non-empty model string. -/
theorem defaultModelStr_good (dt m : String)
    (hdt : dt = "dna" ∨ dt = "aa")
    (hm : m = "UPGMA" ∨ m = "NJ" ∨ m = "ML" ∨ m = "BI") :
    ∃ D, defaultModelStr dt m = some D ∧ pyStrip D = D ∧ pyUpper D = D ∧
      D.isEmpty = false ∧ D ∈ allowedModels m dt := by
  rcases hdt with rfl | rfl <;> rcases hm with rfl | rfl | rfl | rfl <;>
    exact ⟨_, rfl, by decide, by decide, by decide, by decide⟩

theorem default_for_of_defaultModelStr (dt m D : String)
    (h : defaultModelStr dt m = some D) :
    default_for dt m "model" = some (.str D) := by
  unfold defaultModelStr at h
  cases hdf : default_for dt m "model" with
  | none => rw [hdf] at h; cases h
  | some v =>
    cases v with
    | str s =>
      rw [hdf] at h
      rw [Option.some.inj h]
    | nil => rw [hdf] at h; cases h
    | bool b => rw [hdf] at h; cases h
    | int n => rw [hdf] at h; cases h
    | float q => rw [hdf] at h; cases h
    | list xs => rw [hdf] at h; cases h
    | map mm => rw [hdf] at h; cases h

/-- The model field of any accepted spec stores an allowed, trim- and
upper-fixed, non-empty model string. -/
theorem modelField_out (dt m name : String) (mv : Option YVal)
    (hdt : dt = "dna" ∨ dt = "aa")
    (hm : m = "UPGMA" ∨ m = "NJ" ∨ m = "ML" ∨ m = "BI") :
    ∃ D, (modelField dt m name mv).1 = [("model", .str D)] ∧ pyStrip D = D ∧
      pyUpper D = D ∧ D.isEmpty = false ∧ D ∈ allowedModels m dt := by
  obtain ⟨Dd, hDd, hd1, hd2, hd3, hd4⟩ := defaultModelStr_good dt m hdt hm
  have hdf : default_for dt m "model" = some (.str Dd) :=
    default_for_of_defaultModelStr dt m Dd hDd
  have hmiss : ((default_for dt m "model").getD .nil : YVal) = .str Dd := by
    rw [hdf]; rfl
  cases mv with
  | none => exact ⟨Dd, by dsimp only [modelField]; rw [hmiss], hd1, hd2, hd3, hd4⟩
  | some y =>
    cases y with
    | str s =>
      simp only [modelField]
      by_cases hb : (pyStrip s).isEmpty = true
      · rw [if_pos hb]
        exact ⟨Dd, by rw [hmiss], hd1, hd2, hd3, hd4⟩
      · rw [if_neg hb]
        by_cases hmem : pyUpper (pyStrip s) ∈ allowedModels m dt
        · have hnm : normalized_model s dt m = (some (pyUpper (pyStrip s)), none) := by
            rcases hm with rfl | rfl | rfl | rfl
            · simp only [normalized_model]
              rw [if_pos (Or.inl trivial), if_pos hmem]
            · simp only [normalized_model]
              rw [if_pos (Or.inr trivial), if_pos hmem]
            · simp only [normalized_model]
              rw [if_pos trivial, if_pos hmem]
              split_ifs <;> rfl
            · simp only [normalized_model]
              rw [if_pos trivial, if_pos hmem]
              split_ifs <;> rfl
          obtain ⟨g1, g2, g3⟩ := allowedModels_good m dt _ hm hmem
          exact ⟨pyUpper (pyStrip s), by rw [hnm]; rfl, g1, g2, g3, hmem⟩
        · rw [normalized_model_invalid s dt m hm hmem]
          exact ⟨Dd, by rw [hDd]; rfl, hd1, hd2, hd3, hd4⟩
    | nil => exact ⟨Dd, by dsimp only [modelField]; rw [hmiss], hd1, hd2, hd3, hd4⟩
    | bool b => exact ⟨Dd, by dsimp only [modelField]; rw [hmiss], hd1, hd2, hd3, hd4⟩
    | int n => exact ⟨Dd, by dsimp only [modelField]; rw [hmiss], hd1, hd2, hd3, hd4⟩
    | float q => exact ⟨Dd, by dsimp only [modelField]; rw [hmiss], hd1, hd2, hd3, hd4⟩
    | list xs => exact ⟨Dd, by dsimp only [modelField]; rw [hmiss], hd1, hd2, hd3, hd4⟩
    | map mm => exact ⟨Dd, by dsimp only [modelField]; rw [hmiss], hd1, hd2, hd3, hd4⟩

/-- Re-validating an allowed stored model value reproduces it with no
warning. -/
theorem modelField_fix (dt m name D : String)
    (hm : m = "UPGMA" ∨ m = "NJ" ∨ m = "ML" ∨ m = "BI")
    (h1 : pyStrip D = D) (h2 : pyUpper D = D) (h3 : D.isEmpty = false)
    (h4 : D ∈ allowedModels m dt) :
    modelField dt m name (some (.str D)) = ([("model", .str D)], []) := by
  simp only [modelField]
  rw [if_neg (show ¬(pyStrip D).isEmpty = true by rw [h1, h3]; exact fun h => Bool.noConfusion h)]
  have hnm : normalized_model D dt m = (some D, none) := by
    rcases hm with rfl | rfl | rfl | rfl
    · simp only [normalized_model]
      rw [h1, h2, if_pos (Or.inl trivial), if_pos h4]
    · simp only [normalized_model]
      rw [h1, h2, if_pos (Or.inr trivial), if_pos h4]
    · simp only [normalized_model]
      rw [h1, h2, if_pos trivial, if_pos h4]
      split_ifs <;> rfl
    · simp only [normalized_model]
      rw [h1, h2, if_pos trivial, if_pos h4]
      split_ifs <;> rfl
  rw [hnm]
  rfl

/-- The starter field of any accepted spec stores either the literal
"random" or a trim-fixed previously seen name that does not read "random". -/
theorem starterField_out (dt m name : String) (sv : Option YVal) (seen : List String) :
    ∃ S, (starterField dt m name sv seen).1 = [("starter", .str S)] ∧
      (S = "random" ∨ (pyLower S ≠ "random" ∧ S ∈ seen ∧ pyStrip S = S)) := by
  simp only [starterField]
  by_cases h1 : pyLower (starterTrim dt m sv) = "random"
  · rw [if_pos h1]; exact ⟨"random", rfl, Or.inl rfl⟩
  · rw [if_neg h1]
    by_cases h2 : starterTrim dt m sv ∈ seen
    · rw [if_pos h2]
      refine ⟨starterTrim dt m sv, rfl, Or.inr ⟨h1, h2, ?_⟩⟩
      unfold starterTrim
      cases starterRaw dt m sv with
      | str s => exact pyStrip_idem s
      | nil => rfl
      | bool b => rfl
      | int n => rfl
      | float q => rfl
      | list xs => rfl
      | map mm => rfl
    · rw [if_neg h2]
      by_cases h3 : (starterTrim dt m sv).isEmpty = true
      · rw [if_pos h3]; exact ⟨"random", rfl, Or.inl rfl⟩
      · rw [if_neg h3]; exact ⟨"random", rfl, Or.inl rfl⟩

/-- Re-validating a stored starter value reproduces it with no warning. -/
theorem starterField_fix (dt m name S : String) (seen : List String)
    (h : S = "random" ∨ (pyLower S ≠ "random" ∧ S ∈ seen ∧ pyStrip S = S)) :
    starterField dt m name (some (.str S)) seen = ([("starter", .str S)], []) := by
  rcases h with rfl | ⟨h1, h2, h3⟩
  · rfl
  · have hst : starterTrim dt m (some (.str S)) = S := h3
    simp only [starterField]
    rw [hst, if_neg h1, if_pos h2]

/-- The burninfrac field of any accepted spec stores a float strictly
between 0 and 1. -/
theorem bfField_out (name : String) (bv : Option YVal) :
    ∃ q, (bfField name bv).1 = [("burninfrac", .float q)] ∧
      ratLt (mkRat 0 1) q ∧ ratLt q (mkRat 1 1) := by
  simp only [bfField]
  split
  · split_ifs with hc
    · exact ⟨_, rfl, hc.1, hc.2⟩
    · exact ⟨bfDefault, rfl, by decide, by decide⟩
  · exact ⟨bfDefault, rfl, by decide, by decide⟩

/-- Re-validating a stored burninfrac value reproduces it with no warning. -/
theorem bfField_fix (name : String) (q : Rat)
    (h1 : ratLt (mkRat 0 1) q) (h2 : ratLt q (mkRat 1 1)) :
    bfField name (some (.float q)) = ([("burninfrac", .float q)], []) := by
  simp only [bfField, pyFloatOf]
  rw [if_pos ⟨h1, h2⟩]

/-- An accepted spec implies a valid, non-BI-dropped method field. -/
theorem validateOne_some_inv (dt : String) (bi : Bool) (ntaxa : Nat) (seen : List String)
    (t : Entry) (vt : Entry) (ws : List String)
    (hacc : validateOne dt bi ntaxa seen t = (some vt, ws)) :
    ∃ m, mapLookup t "method" = some (.str m) ∧
      (m = "UPGMA" ∨ m = "NJ" ∨ m = "MP" ∨ m = "ML" ∨ m = "BI") ∧
      ¬(m = "BI" ∧ bi = false) := by
  cases hml : mapLookup t "method" with
  | none => rw [validateOne] at hacc; rw [hml] at hacc; simp at hacc
  | some v =>
    cases v with
    | str m =>
      by_cases h5 : m = "UPGMA" ∨ m = "NJ" ∨ m = "MP" ∨ m = "ML" ∨ m = "BI"
      · by_cases hbi : m = "BI" ∧ bi = false
        · obtain ⟨rfl, rfl⟩ := hbi
          rw [validateOne_bi_drop dt ntaxa seen t hml] at hacc
          simp at hacc
        · exact ⟨m, rfl, h5, hbi⟩
      · rw [validateOne] at hacc
        rw [hml] at hacc
        dsimp only at hacc
        rw [if_neg h5] at hacc
        simp at hacc
    | nil => rw [validateOne] at hacc; rw [hml] at hacc; simp at hacc
    | bool b => rw [validateOne] at hacc; rw [hml] at hacc; simp at hacc
    | int n => rw [validateOne] at hacc; rw [hml] at hacc; simp at hacc
    | float q => rw [validateOne] at hacc; rw [hml] at hacc; simp at hacc
    | list xs => rw [validateOne] at hacc; rw [hml] at hacc; simp at hacc
    | map mm => rw [validateOne] at hacc; rw [hml] at hacc; simp at hacc

theorem exists_snd_eq {α β : Type} (f : α × β) (a : α) (h : f.1 = a) :
    ∃ b, f = (a, b) := ⟨f.2, Prod.ext h rfl⟩

/-- Re-validating an accepted spec against the same seen-set accepts it
unchanged (its name field is the source entry's name). -/
theorem validateOne_repro (dt : String) (bi : Bool) (ntaxa : Nat) (seen : List String)
    (t vt : Entry) (ws : List String)
    (hdt : dt = "dna" ∨ dt = "aa")
    (hacc : validateOne dt bi ntaxa seen t = (some vt, ws)) :
    mapLookup vt "name" = some (.str (entryName t)) ∧ entryName vt = entryName t ∧
    ∃ ws2, validateOne dt bi ntaxa seen vt = (some vt, ws2) := by
  obtain ⟨m, hml, h5, hbi⟩ := validateOne_some_inv dt bi ntaxa seen t vt ws hacc
  rw [validateOne_accept dt bi ntaxa seen t m hml h5 hbi] at hacc
  have hvt := Option.some.inj (congrArg Prod.fst hacc)
  rcases h5 with rfl | rfl | rfl | rfl | rfl
  · -- UPGMA: model only
    rw [if_pos (show ("model":String) ∈ allowed_keys_by_method "UPGMA" by decide),
      if_neg (show ¬ ("starter":String) ∈ allowed_keys_by_method "UPGMA" by decide),
      if_neg (show ¬ ("burninfrac":String) ∈ allowed_keys_by_method "UPGMA" by decide)] at hvt
    obtain ⟨D, hD1, hDs, hDu, hDe, hDm⟩ := modelField_out dt "UPGMA" (entryName t)
      (mapLookup t "model") hdt (Or.inl rfl)
    rw [hD1] at hvt
    have hname2 : mapLookup vt "name" = some (.str (entryName t)) := by rw [← hvt]; rfl
    have hme2 : mapLookup vt "method" = some (.str "UPGMA") := by rw [← hvt]; rfl
    have hmo2 : mapLookup vt "model" = some (.str D) := by rw [← hvt]; rfl
    have hent2 : entryName vt = entryName t := by unfold entryName; rw [hname2]; rfl
    refine ⟨hname2, hent2, exists_snd_eq _ _ ?_⟩
    rw [validateOne_accept dt bi ntaxa seen vt "UPGMA" hme2 (Or.inl rfl) hbi]
    rw [hent2, hmo2,
      if_pos (show ("model":String) ∈ allowed_keys_by_method "UPGMA" by decide),
      if_neg (show ¬ ("starter":String) ∈ allowed_keys_by_method "UPGMA" by decide),
      if_neg (show ¬ ("burninfrac":String) ∈ allowed_keys_by_method "UPGMA" by decide),
      modelField_fix dt "UPGMA" (entryName t) D (Or.inl rfl) hDs hDu hDe hDm, ← hvt]
  · -- NJ: model only
    rw [if_pos (show ("model":String) ∈ allowed_keys_by_method "NJ" by decide),
      if_neg (show ¬ ("starter":String) ∈ allowed_keys_by_method "NJ" by decide),
      if_neg (show ¬ ("burninfrac":String) ∈ allowed_keys_by_method "NJ" by decide)] at hvt
    obtain ⟨D, hD1, hDs, hDu, hDe, hDm⟩ := modelField_out dt "NJ" (entryName t)
      (mapLookup t "model") hdt (Or.inr (Or.inl rfl))
    rw [hD1] at hvt
    have hname2 : mapLookup vt "name" = some (.str (entryName t)) := by rw [← hvt]; rfl
    have hme2 : mapLookup vt "method" = some (.str "NJ") := by rw [← hvt]; rfl
    have hmo2 : mapLookup vt "model" = some (.str D) := by rw [← hvt]; rfl
    have hent2 : entryName vt = entryName t := by unfold entryName; rw [hname2]; rfl
    refine ⟨hname2, hent2, exists_snd_eq _ _ ?_⟩
    rw [validateOne_accept dt bi ntaxa seen vt "NJ" hme2 (Or.inr (Or.inl rfl)) hbi]
    rw [hent2, hmo2,
      if_pos (show ("model":String) ∈ allowed_keys_by_method "NJ" by decide),
      if_neg (show ¬ ("starter":String) ∈ allowed_keys_by_method "NJ" by decide),
      if_neg (show ¬ ("burninfrac":String) ∈ allowed_keys_by_method "NJ" by decide),
      modelField_fix dt "NJ" (entryName t) D (Or.inr (Or.inl rfl)) hDs hDu hDe hDm, ← hvt]
  · -- MP: starter only
    rw [if_neg (show ¬ ("model":String) ∈ allowed_keys_by_method "MP" by decide),
      if_pos (show ("starter":String) ∈ allowed_keys_by_method "MP" by decide),
      if_neg (show ¬ ("burninfrac":String) ∈ allowed_keys_by_method "MP" by decide)] at hvt
    obtain ⟨S, hS1, hSg⟩ := starterField_out dt "MP" (entryName t)
      (mapLookup t "starter") seen
    rw [hS1] at hvt
    have hname2 : mapLookup vt "name" = some (.str (entryName t)) := by rw [← hvt]; rfl
    have hme2 : mapLookup vt "method" = some (.str "MP") := by rw [← hvt]; rfl
    have hst2 : mapLookup vt "starter" = some (.str S) := by rw [← hvt]; rfl
    have hent2 : entryName vt = entryName t := by unfold entryName; rw [hname2]; rfl
    refine ⟨hname2, hent2, exists_snd_eq _ _ ?_⟩
    rw [validateOne_accept dt bi ntaxa seen vt "MP" hme2 (Or.inr (Or.inr (Or.inl rfl))) hbi]
    rw [hent2, hst2,
      if_neg (show ¬ ("model":String) ∈ allowed_keys_by_method "MP" by decide),
      if_pos (show ("starter":String) ∈ allowed_keys_by_method "MP" by decide),
      if_neg (show ¬ ("burninfrac":String) ∈ allowed_keys_by_method "MP" by decide),
      starterField_fix dt "MP" (entryName t) S seen hSg, ← hvt]
  · -- ML: model and starter
    rw [if_pos (show ("model":String) ∈ allowed_keys_by_method "ML" by decide),
      if_pos (show ("starter":String) ∈ allowed_keys_by_method "ML" by decide),
      if_neg (show ¬ ("burninfrac":String) ∈ allowed_keys_by_method "ML" by decide)] at hvt
    obtain ⟨D, hD1, hDs, hDu, hDe, hDm⟩ := modelField_out dt "ML" (entryName t)
      (mapLookup t "model") hdt (Or.inr (Or.inr (Or.inl rfl)))
    obtain ⟨S, hS1, hSg⟩ := starterField_out dt "ML" (entryName t)
      (mapLookup t "starter") seen
    rw [hD1, hS1] at hvt
    have hname2 : mapLookup vt "name" = some (.str (entryName t)) := by rw [← hvt]; rfl
    have hme2 : mapLookup vt "method" = some (.str "ML") := by rw [← hvt]; rfl
    have hmo2 : mapLookup vt "model" = some (.str D) := by rw [← hvt]; rfl
    have hst2 : mapLookup vt "starter" = some (.str S) := by rw [← hvt]; rfl
    have hent2 : entryName vt = entryName t := by unfold entryName; rw [hname2]; rfl
    refine ⟨hname2, hent2, exists_snd_eq _ _ ?_⟩
    rw [validateOne_accept dt bi ntaxa seen vt "ML" hme2
      (Or.inr (Or.inr (Or.inr (Or.inl rfl)))) hbi]
    rw [hent2, hmo2, hst2,
      if_pos (show ("model":String) ∈ allowed_keys_by_method "ML" by decide),
      if_pos (show ("starter":String) ∈ allowed_keys_by_method "ML" by decide),
      if_neg (show ¬ ("burninfrac":String) ∈ allowed_keys_by_method "ML" by decide),
      modelField_fix dt "ML" (entryName t) D (Or.inr (Or.inr (Or.inl rfl))) hDs hDu hDe hDm,
      starterField_fix dt "ML" (entryName t) S seen hSg, ← hvt]
  · -- BI: model, starter and burninfrac
    rw [if_pos (show ("model":String) ∈ allowed_keys_by_method "BI" by decide),
      if_pos (show ("starter":String) ∈ allowed_keys_by_method "BI" by decide),
      if_pos (show ("burninfrac":String) ∈ allowed_keys_by_method "BI" by decide)] at hvt
    obtain ⟨D, hD1, hDs, hDu, hDe, hDm⟩ := modelField_out dt "BI" (entryName t)
      (mapLookup t "model") hdt (Or.inr (Or.inr (Or.inr rfl)))
    obtain ⟨S, hS1, hSg⟩ := starterField_out dt "BI" (entryName t)
      (mapLookup t "starter") seen
    obtain ⟨q, hQ1, hq1, hq2⟩ := bfField_out (entryName t) (mapLookup t "burninfrac")
    rw [hD1, hS1, hQ1] at hvt
    have hname2 : mapLookup vt "name" = some (.str (entryName t)) := by rw [← hvt]; rfl
    have hme2 : mapLookup vt "method" = some (.str "BI") := by rw [← hvt]; rfl
    have hmo2 : mapLookup vt "model" = some (.str D) := by rw [← hvt]; rfl
    have hst2 : mapLookup vt "starter" = some (.str S) := by rw [← hvt]; rfl
    have hbf2 : mapLookup vt "burninfrac" = some (.float q) := by rw [← hvt]; rfl
    have hent2 : entryName vt = entryName t := by unfold entryName; rw [hname2]; rfl
    refine ⟨hname2, hent2, exists_snd_eq _ _ ?_⟩
    rw [validateOne_accept dt bi ntaxa seen vt "BI" hme2
      (Or.inr (Or.inr (Or.inr (Or.inr rfl)))) hbi]
    rw [hent2, hmo2, hst2, hbf2,
      if_pos (show ("model":String) ∈ allowed_keys_by_method "BI" by decide),
      if_pos (show ("starter":String) ∈ allowed_keys_by_method "BI" by decide),
      if_pos (show ("burninfrac":String) ∈ allowed_keys_by_method "BI" by decide),
      modelField_fix dt "BI" (entryName t) D (Or.inr (Or.inr (Or.inr rfl))) hDs hDu hDe hDm,
      starterField_fix dt "BI" (entryName t) S seen hSg,
      bfField_fix (entryName t) q hq1 hq2, ← hvt]

/-- Re-running the per-tree loop on its own accepted output reproduces the
accepted list exactly. -/
theorem treesLoop_repro (dt : String) (bi : Bool) (ntaxa : Nat)
    (hdt : dt = "dna" ∨ dt = "aa") :
    ∀ (ts : List Entry) (seen : List String),
      ∃ ws2, treesLoop dt bi ntaxa seen (treesLoop dt bi ntaxa seen ts).1 =
        ((treesLoop dt bi ntaxa seen ts).1, ws2) := by
  intro ts
  induction ts with
  | nil => intro seen; exact ⟨[], rfl⟩
  | cons t ts ih =>
    intro seen
    cases hv : validateOne dt bi ntaxa seen t with
    | mk ov ws =>
      cases ov with
      | some vt =>
        obtain ⟨hname, hent, ws2a, hrepro⟩ :=
          validateOne_repro dt bi ntaxa seen t vt ws hdt hv
        obtain ⟨ws2b, hrest⟩ := ih (seen ++ [entryName t])
        refine ⟨ws2a ++ ws2b, ?_⟩
        simp only [treesLoop, hv]
        simp only [treesLoop, hrepro]
        rw [hent, hrest]
      | none =>
        obtain ⟨ws2b, hrest⟩ := ih seen
        refine ⟨ws2b, ?_⟩
        simp only [treesLoop, hv]
        exact hrest

/-- Accepted entries carry their own name in the "name" field, and their
name list is a sublist of the input entries' name list. -/
theorem treesLoop_names (dt : String) (bi : Bool) (ntaxa : Nat)
    (hdt : dt = "dna" ∨ dt = "aa") :
    ∀ (ts : List Entry) (seen : List String),
      ((treesLoop dt bi ntaxa seen ts).1.map entryName).Sublist (ts.map entryName) ∧
      ∀ vt ∈ (treesLoop dt bi ntaxa seen ts).1,
        mapLookup vt "name" = some (.str (entryName vt)) ∧
        entryName vt ∈ ts.map entryName := by
  intro ts
  induction ts with
  | nil => intro seen; exact ⟨List.Sublist.refl _, fun vt hvt => absurd hvt (by simp [treesLoop])⟩
  | cons t ts ih =>
    intro seen
    cases hv : validateOne dt bi ntaxa seen t with
    | mk ov ws =>
      cases ov with
      | some vt =>
        obtain ⟨hname, hent, _, _⟩ := validateOne_repro dt bi ntaxa seen t vt ws hdt hv
        obtain ⟨ihs, ihm⟩ := ih (seen ++ [entryName t])
        constructor
        · simp only [treesLoop, hv, List.map_cons]
          rw [hent]
          exact List.Sublist.cons₂ _ ihs
        · intro vt' hvt'
          simp only [treesLoop, hv] at hvt'
          rcases List.mem_cons.mp hvt' with rfl | hmem
          · exact ⟨by rw [hent]; exact hname, by rw [hent]; exact List.mem_cons_self _ _⟩
          · obtain ⟨h1, h2⟩ := ihm vt' hmem
            exact ⟨h1, List.mem_cons_of_mem _ h2⟩
      | none =>
        obtain ⟨ihs, ihm⟩ := ih seen
        constructor
        · simp only [treesLoop, hv]
          exact ihs.trans (List.sublist_cons_self _ _)
        · intro vt' hvt'
          simp only [treesLoop, hv] at hvt'
          obtain ⟨h1, h2⟩ := ihm vt' hvt'
          exact ⟨h1, List.mem_cons_of_mem _ h2⟩

/-- Entries surviving the structural filter have non-blank names. -/
theorem filterEntries_nonempty_names :
    ∀ elems : List YVal, ∀ e ∈ (filterEntries elems).1,
      (pyStrip (entryName e)).isEmpty = false := by
  intro elems
  induction elems with
  | nil => intro e he; cases he
  | cons v vs ih =>
    intro e he
    cases v with
    | map em =>
      simp only [filterEntries] at he
      cases hn : mapLookup em "name" with
      | none => rw [hn] at he; exact ih e he
      | some y =>
        cases y with
        | str s =>
          rw [hn] at he
          dsimp only at he
          by_cases hb : (pyStrip s).isEmpty = true
          · rw [if_pos hb] at he; exact ih e he
          · rw [if_neg hb] at he
            rcases List.mem_cons.mp he with rfl | hmem
            · have : entryName e = s := by unfold entryName; rw [hn]
              rw [this]
              cases hx : (pyStrip s).isEmpty
              · rfl
              · exact absurd hx hb
            · exact ih e hmem
        | nil => rw [hn] at he; exact ih e he
        | bool b => rw [hn] at he; exact ih e he
        | int n => rw [hn] at he; exact ih e he
        | float q => rw [hn] at he; exact ih e he
        | list xs => rw [hn] at he; exact ih e he
        | map mm => rw [hn] at he; exact ih e he
    | nil => simp only [filterEntries] at he; exact ih e he
    | bool b => simp only [filterEntries] at he; exact ih e he
    | int n => simp only [filterEntries] at he; exact ih e he
    | float q => simp only [filterEntries] at he; exact ih e he
    | str s => simp only [filterEntries] at he; exact ih e he
    | list xs => simp only [filterEntries] at he; exact ih e he

/-- The structural filter keeps every dict entry whose stored name is its
own non-blank name, and adds no warnings. -/
theorem filterEntries_of_valid :
    ∀ l : List Entry,
      (∀ e ∈ l, mapLookup e "name" = some (.str (entryName e)) ∧
        (pyStrip (entryName e)).isEmpty = false) →
      filterEntries (l.map YVal.map) = (l, []) := by
  intro l
  induction l with
  | nil => intro _; rfl
  | cons e l ih =>
    intro h
    obtain ⟨hn, hb⟩ := h e (List.mem_cons_self _ _)
    have hrest := ih (fun e' he' => h e' (List.mem_cons_of_mem _ he'))
    simp only [List.map_cons, filterEntries, hrest, hn]
    rw [if_neg (show ¬ (pyStrip (entryName e)).isEmpty = true by simp [hb])]

/-- A list with no duplicates keeps that property on sublists. -/
theorem dupsOf_sublist_nil (l1 l2 : List String) (hs : l1.Sublist l2)
    (h : dupsOf l2 = []) : dupsOf l1 = [] := by
  have hcount : ∀ a, l2.count a ≤ 1 := by
    intro a
    by_contra hc
    push_neg at hc
    have hmem := mem_dupsOf l2 a hc
    rw [h] at hmem
    cases hmem
  unfold dupsOf
  rw [List.filter_eq_nil_iff]
  intro a ha
  simp only [decide_eq_true_eq, not_lt]
  exact le_trans (hs.count_le a) (hcount a)

/-- C1 (amended): re-running the Rule Engine with --yes on the normalized
artifact of a successful run succeeds and reproduces the identical artifact;
the second run's warning list exists but is not always empty. -/
theorem c1_rerun (env : VEnv) (raw : YVal) (p : YVal) (ws : List String)
    (h : runValidate env true raw = .ok (p, ws)) :
    ∃ ws2, runValidate env true p = .ok (p, ws2) := by
  rw [runValidate, except_bind_ok] at h
  obtain ⟨st, hA, hT⟩ := h
  rw [stageA, except_bind_ok] at hA
  obtain ⟨cfgm, hcfg, hA⟩ := hA
  rw [except_bind_ok] at hA
  obtain ⟨rt, hrt, hA⟩ := hA
  rw [except_bind_ok] at hA
  obtain ⟨data0, hd0, hA⟩ := hA
  rw [except_bind_ok] at hA
  obtain ⟨fasta, hfasta, hA⟩ := hA
  rw [except_bind_ok] at hA
  obtain ⟨recs, hrecs, hA⟩ := hA
  rw [except_bind_ok] at hA
  obtain ⟨dtl, hdtl, hA⟩ := hA
  rw [except_bind_ok] at hA
  obtain ⟨u, hu, hA⟩ := hA
  rw [except_bind_ok] at hA
  obtain ⟨mantel, hmant, hA⟩ := hA
  cases u
  have hst := Except.ok.inj hA
  subst hst
  have hdt : dtl = "dna" ∨ dtl = "aa" := requireDatatype_ok _ _ hdtl
  have hdata : mapLookup cfgm "data" = some (.map data0) := by
    cases hcd : mapLookup cfgm "data" with
    | none =>
      rw [hcd] at hd0
      have hd00 : [] = data0 := Except.ok.inj hd0
      rw [← hd00] at hfasta
      cases hfasta
    | some v =>
      cases v with
      | map dm =>
        rw [hcd] at hd0
        rw [Except.ok.inj hd0]
      | nil => rw [hcd] at hd0; cases hd0
      | bool b => rw [hcd] at hd0; cases hd0
      | int n => rw [hcd] at hd0; cases hd0
      | float qq => rw [hcd] at hd0; cases hd0
      | str s => rw [hcd] at hd0; cases hd0
      | list xs => rw [hcd] at hd0; cases hd0
  rw [treesFinal, except_bind_ok] at hT
  obtain ⟨elems, hel, hT⟩ := hT
  dsimp only at hel hT
  rw [if_pos (show (mapLookup cfgm "data").isSome = true by rw [hdata]; rfl)] at hT
  set ntaxa := (recs.map (·.1)).length with hnt
  set bia := (!decide (ntaxa < 4)) with hbia
  set g := (normalize_gap_symbol (mapGetD data0 "gap_symbol" (.str "-"))).1 with hg
  set q := (as_bool (mapGetD data0 "post_alignment_qc" (.bool false)) false).1 with hq
  set LP := treesLoop dtl bia ntaxa [] (filterEntries elems).1 with hLP
  set data2 := mapSet (mapSet data0 "gap_symbol" (.str g)) "post_alignment_qc" (.bool q)
    with hdata2
  set base := mapSet cfgm "data" (.map data2) with hbase
  set P := mapSet base "trees" (.list (LP.1.map YVal.map)) with hP
  by_cases hdups0 : (dupsOf ((filterEntries elems).1.map entryName)).isEmpty = false
  · rw [if_pos hdups0] at hT; cases hT
  · rw [if_neg hdups0] at hT
    have hdups : dupsOf ((filterEntries elems).1.map entryName) = [] := by
      cases hd : dupsOf ((filterEntries elems).1.map entryName) with
      | nil => rfl
      | cons a l => rw [hd] at hdups0; exact absurd rfl hdups0
    by_cases hlp0 : (LP.1).isEmpty = true
    · rw [if_pos hlp0] at hT; cases hT
    · rw [if_neg hlp0] at hT
      rw [ite_and_false] at hT
      have hp := congrArg Prod.fst (Except.ok.inj hT)
      dsimp only at hp
      subst hp
      -- second run
      have hPne : P ≠ [] := by rw [hP]; exact mapSet_ne_nil _ _ _
      have hPe : P.isEmpty = false := by
        cases hPc : P with
        | nil => exact absurd hPc hPne
        | cons a l => rfl
      have hPokCfg : requireCfg (.map P) = .ok P := by
        unfold requireCfg pyOr
        dsimp only [yFalsy]
        rw [hPe]
        rfl
      have hLrt : mapLookup P "runtime" = mapLookup cfgm "runtime" := by
        rw [hP, mapSet_lookup_ne _ _ _ _ (by decide), hbase,
          mapSet_lookup_ne _ _ _ _ (by decide)]
      have hLdata : mapLookup P "data" = some (.map data2) := by
        rw [hP, mapSet_lookup_ne _ _ _ _ (by decide), hbase, mapSet_lookup_self]
      have hLtrees : mapLookup P "trees" = some (.list (LP.1.map YVal.map)) := by
        rw [hP, mapSet_lookup_self]
      have hLmant : mapLookup P "mantel" = mapLookup cfgm "mantel" := by
        rw [hP, mapSet_lookup_ne _ _ _ _ (by decide), hbase,
          mapSet_lookup_ne _ _ _ _ (by decide)]
      have hDfasta : mapLookup data2 "fasta" = mapLookup data0 "fasta" := by
        rw [hdata2, mapSet_lookup_ne _ _ _ _ (by decide),
          mapSet_lookup_ne _ _ _ _ (by decide)]
      have hDdt : mapLookup data2 "datatype" = mapLookup data0 "datatype" := by
        rw [hdata2, mapSet_lookup_ne _ _ _ _ (by decide),
          mapSet_lookup_ne _ _ _ _ (by decide)]
      have hDgap : mapLookup data2 "gap_symbol" = some (.str g) := by
        rw [hdata2, mapSet_lookup_ne _ _ _ _ (by decide), mapSet_lookup_self]
      have hDqc : mapLookup data2 "post_alignment_qc" = some (.bool q) := by
        rw [hdata2, mapSet_lookup_self]
      have hgapfix : normalize_gap_symbol (mapGetD data2 "gap_symbol" (.str "-")) =
          (g, []) := by
        unfold mapGetD
        rw [hDgap]
        show normalize_gap_symbol (.str g) = (g, [])
        rw [hg]
        exact normalize_gap_fix _
      have hqcfix : as_bool (mapGetD data2 "post_alignment_qc" (.bool false)) false =
          (q, none) := by
        unfold mapGetD
        rw [hDqc]
        rfl
      have hiter : iterElems (mapGetD P "trees" (.list [])) =
          .ok (LP.1.map YVal.map) := by
        unfold mapGetD
        rw [hLtrees]
        rfl
      have hnames := treesLoop_names dtl bia ntaxa hdt (filterEntries elems).1 []
      have hfe : filterEntries (LP.1.map YVal.map) = (LP.1, []) := by
        apply filterEntries_of_valid
        intro e he
        obtain ⟨h1, h2⟩ := hnames.2 e he
        refine ⟨h1, ?_⟩
        obtain ⟨t0, ht0, hte⟩ := List.mem_map.mp h2
        rw [← hte]
        exact filterEntries_nonempty_names elems t0 ht0
      have hdups2 : dupsOf (LP.1.map entryName) = [] :=
        dupsOf_sublist_nil _ _ hnames.1 hdups
      obtain ⟨lws2, hloop2⟩ := treesLoop_repro dtl bia ntaxa hdt (filterEntries elems).1 []
      rw [← hLP] at hloop2
      have hid1 : mapSet data2 "gap_symbol" (.str g) = data2 :=
        mapSet_id _ _ _ (by rw [hDgap]; rfl)
          (by rw [hdata2]
              exact allVal_mapSet_ne _ _ _ _ _ (by decide) (allVal_mapSet_self _ _ _))
      have hid2 : mapSet data2 "post_alignment_qc" (.bool q) = data2 :=
        mapSet_id _ _ _ (by rw [hDqc]; rfl) (by rw [hdata2]; exact allVal_mapSet_self _ _ _)
      have hid3 : mapSet P "data" (.map data2) = P :=
        mapSet_id _ _ _ (by rw [hLdata]; rfl)
          (by rw [hP]
              exact allVal_mapSet_ne _ _ _ _ _ (by decide)
                (by rw [hbase]; exact allVal_mapSet_self _ _ _))
      have hid4 : mapSet P "trees" (.list (LP.1.map YVal.map)) = P :=
        mapSet_id _ _ _ (by rw [hLtrees]; rfl) (by rw [hP]; exact allVal_mapSet_self _ _ _)
      rw [runValidate, stageA, hPokCfg, except_ok_bind]
      rw [hLrt, hrt, except_ok_bind]
      rw [hLdata, asMapD_map, except_ok_bind]
      rw [hDfasta, hfasta, except_ok_bind]
      rw [hrecs, except_ok_bind]
      rw [hDdt, hdtl, except_ok_bind]
      rw [hgapfix]
      dsimp only
      rw [hu, except_ok_bind]
      rw [hLmant, hmant, except_ok_bind]
      rw [except_ok_bind]
      rw [treesFinal]
      rw [hiter, except_ok_bind]
      dsimp only
      rw [hfe]
      dsimp only
      rw [if_neg (show ¬ (dupsOf (LP.1.map entryName)).isEmpty = false by
        rw [hdups2]; decide)]
      rw [hloop2]
      dsimp only
      rw [if_neg hlp0]
      rw [ite_and_false]
      rw [hqcfix]
      dsimp only
      rw [hid1, hid2]
      rw [if_pos (show (mapLookup P "data").isSome = true by rw [hLdata]; rfl)]
      rw [hid3, hid4]
      exact ⟨_, rfl⟩

/-- C1 counterexample: a successful first run whose artifact, re-validated,
yields the identical artifact but a NON-empty warning list — the invalid
`runtime.seed` is never written back, so its warning recurs on every rerun. -/
theorem c1_counterexample :
    runValidate
      { fs := fun p => if p = "a.fa" then
          some [">A", "ACGT", ">B", "AAAA", ">C", "CCCC", ">D", "GGGG"] else none,
        resp := "" } true
      (.map [("runtime", .map [("seed", .str "abc")]),
             ("data", .map [("fasta", .str "a.fa"), ("datatype", .str "dna")]),
             ("trees", .list [.map [("name", .str "t1"), ("method", .str "NJ")]])]) =
      .ok (.map [("runtime", .map [("seed", .str "abc")]),
             ("data", .map [("fasta", .str "a.fa"), ("datatype", .str "dna"),
               ("gap_symbol", .str "-"), ("post_alignment_qc", .bool false)]),
             ("trees", .list [.map [("name", .str "t1"), ("method", .str "NJ"),
               ("model", .str "JC69")]])],
           ["[runtime.seed] 'abc' invalid; no seed enforced",
            "[t1] model missing; using default 'JC69' for DNA"]) ∧
    runValidate
      { fs := fun p => if p = "a.fa" then
          some [">A", "ACGT", ">B", "AAAA", ">C", "CCCC", ">D", "GGGG"] else none,
        resp := "" } true
      (.map [("runtime", .map [("seed", .str "abc")]),
             ("data", .map [("fasta", .str "a.fa"), ("datatype", .str "dna"),
               ("gap_symbol", .str "-"), ("post_alignment_qc", .bool false)]),
             ("trees", .list [.map [("name", .str "t1"), ("method", .str "NJ"),
               ("model", .str "JC69")]])]) =
      .ok (.map [("runtime", .map [("seed", .str "abc")]),
             ("data", .map [("fasta", .str "a.fa"), ("datatype", .str "dna"),
               ("gap_symbol", .str "-"), ("post_alignment_qc", .bool false)]),
             ("trees", .list [.map [("name", .str "t1"), ("method", .str "NJ"),
               ("model", .str "JC69")]])],
           ["[runtime.seed] 'abc' invalid; no seed enforced"]) ∧
    (["[runtime.seed] 'abc' invalid; no seed enforced"] : List String) ≠ [] :=
  ⟨rfl, rfl, by decide⟩

/-- Witness for the amended C1: the rerun on the concrete artifact above
succeeds and reproduces it. -/
theorem c1_witness :
    ∃ ws2, runValidate
      { fs := fun p => if p = "a.fa" then
          some [">A", "ACGT", ">B", "AAAA", ">C", "CCCC", ">D", "GGGG"] else none,
        resp := "" } true
      (.map [("runtime", .map [("seed", .str "abc")]),
             ("data", .map [("fasta", .str "a.fa"), ("datatype", .str "dna"),
               ("gap_symbol", .str "-"), ("post_alignment_qc", .bool false)]),
             ("trees", .list [.map [("name", .str "t1"), ("method", .str "NJ"),
               ("model", .str "JC69")]])]) =
      .ok (.map [("runtime", .map [("seed", .str "abc")]),
             ("data", .map [("fasta", .str "a.fa"), ("datatype", .str "dna"),
               ("gap_symbol", .str "-"), ("post_alignment_qc", .bool false)]),
             ("trees", .list [.map [("name", .str "t1"), ("method", .str "NJ"),
               ("model", .str "JC69")]])], ws2) :=
  c1_rerun
    { fs := fun p => if p = "a.fa" then
        some [">A", "ACGT", ">B", "AAAA", ">C", "CCCC", ">D", "GGGG"] else none,
      resp := "" }
    (.map [("runtime", .map [("seed", .str "abc")]),
           ("data", .map [("fasta", .str "a.fa"), ("datatype", .str "dna")]),
           ("trees", .list [.map [("name", .str "t1"), ("method", .str "NJ")]])])
    (.map [("runtime", .map [("seed", .str "abc")]),
           ("data", .map [("fasta", .str "a.fa"), ("datatype", .str "dna"),
             ("gap_symbol", .str "-"), ("post_alignment_qc", .bool false)]),
           ("trees", .list [.map [("name", .str "t1"), ("method", .str "NJ"),
             ("model", .str "JC69")]])])
    ["[runtime.seed] 'abc' invalid; no seed enforced",
     "[t1] model missing; using default 'JC69' for DNA"]
    rfl

/-! ### dispatcher.py -/

/-- `os.path.join(a, b)` for the relative paths the Dispatcher builds. -/
def pathJoin (a b : String) : String := a ++ "/" ++ b

/-- `os.path.dirname`. -/
def dirname (p : String) : String :=
  ⟨((p.data.reverse.dropWhile (fun c => !(c = '/'))).tail).reverse⟩

/-- Python `round(x, 3)` (round-half-to-even at three decimals). -/
def pyRound3 (x : Rat) : Rat :=
  let n : Int := x.num * 1000
  let d : Int := (x.den : Int)
  let t : Int := Int.fdiv n d
  let r : Int := n - t * d
  let up : Int := if 2 * r > d ∨ (2 * r = d ∧ t % 2 = 1) then t + 1 else t
  mkRat up 1000

/-- A subprocess argument: Python would raise `TypeError` on a non-string
entry of the command list. -/
def cmdArg (v : YVal) : Except VErr String :=
  match v with
  | .str s => .ok s
  | _ => .error (.crash "TypeError: expected str, bytes or os.PathLike object")

/-- `starter_path_or_random`. -/
def starter_path_or_random (starter : YVal) : Except VErr String :=
  match starter with
  | .str s =>
    if pyStrip (pyLower s) = "random" then .ok "random"
    else .ok (pathJoin (pathJoin "results" s) "tree.nwk")
  | _ => .error (.crash "TypeError: expected str, bytes or os.PathLike object")

/-- The first dict entry of the trees list named `treeName`. -/
def findTree (treeName : String) : List YVal → Option Entry
  | [] => none
  | v :: rest =>
    match v with
    | .map t =>
      if (match mapLookup t "name" with
          | some (.str s) => decide (s = treeName)
          | _ => false) then some t
      else findTree treeName rest
    | _ => findTree treeName rest

/-- `load_tree_spec`: the parsed config dict and the requested tree spec. -/
def load_tree_spec (raw : YVal) (cfgPath treeName : String) :
    Except VErr (List (String × YVal) × Entry) :=
  match pyOr raw (.map []) with
  | .map m =>
    (match iterElems (mapGetD m "trees" (.list [])) with
     | .error e => .error e
     | .ok elems =>
       match findTree treeName elems with
       | some t => .ok (m, t)
       | none => .error (.exit 1 ("[error] tree '" ++ treeName ++ "' not found in " ++
           cfgPath)))
  | _ => .error (.crash "AttributeError: cfg is not a dict")

/-- The Dispatcher's environment: parsed config, backend behaviour (exit
code per command, `none` = success), whether the stats path exists after the
backend ran, measured wall-clock seconds, and the script directory. -/
structure DEnv where
  cfgRaw : YVal
  runResult : List String → Option Int
  statsExists : Bool
  elapsed : Rat
  scriptDir : String

/-- The Dispatcher's parsed CLI arguments. -/
structure DArgs where
  config : String
  treeName : String
  fasta : String
  outTree : String
  outStats : String
  seed : Option Int

def seedSuffix (seed : Option Int) : List String :=
  match seed with
  | some n => ["--seed", intStr n]
  | none => []

/-- The base stats payload (the placeholder written on fallback). -/
def baseStats (args : DArgs) (methodV : YVal) (datatype : String)
    (modelV starterV : YVal) : List (String × YVal) :=
  [("tree", .str args.treeName), ("method", methodV), ("datatype", .str datatype),
   ("model", modelV),
   ("starter", match starterV with | .str s => .str s | _ => .nil)]

/-- The backend command list per method (the `branch on method` block). -/
def dispatchCmds (env : DEnv) (args : DArgs) (spec : Entry)
    (dataBlock : List (String × YVal)) (datatype : String) (methodV modelV : YVal)
    (starterArg : String) : Except VErr (List (List String)) :=
  match methodV with
  | .str m =>
    if m = "UPGMA" ∨ m = "NJ" then
      cmdArg modelV >>= fun modelS =>
      .ok [["Rscript", pathJoin env.scriptDir "build_dist_tree.R",
        "--fasta", args.fasta, "--datatype", datatype, "--model", modelS,
        "--method", m, "--out-tree", args.outTree, "--out-stats", args.outStats]]
    else if m = "MP" then
      .ok [["Rscript", pathJoin env.scriptDir "build_mp.R",
        "--fasta", args.fasta, "--datatype", datatype, "--starter", starterArg,
        "--out-tree", args.outTree, "--out-stats", args.outStats] ++
          seedSuffix args.seed]
    else if m = "ML" then
      cmdArg modelV >>= fun modelS =>
      .ok [["bash", pathJoin env.scriptDir "run_iqtree.sh",
        "--fasta", args.fasta, "--datatype", datatype, "--model", modelS,
        "--starter", starterArg, "--out-tree", args.outTree,
        "--out-stats", args.outStats] ++ seedSuffix args.seed]
    else if m = "BI" then
      cmdArg modelV >>= fun modelS =>
      cmdArg (pyOr (mapGetD dataBlock "gap_symbol" .nil) (.str "-")) >>= fun gapS =>
      .ok [["python3", pathJoin env.scriptDir "write_mrbayes_nexus.py",
          "--fasta", args.fasta, "--datatype", datatype, "--model", modelS,
          "--starter", starterArg, "--gap", gapS,
          "--out-nexus", pathJoin (dirname args.outTree) "input.nex"],
        ["bash", pathJoin env.scriptDir "run_mrbayes.sh",
          "--nexus", pathJoin (dirname args.outTree) "input.nex",
          "--burninfrac", (match mapGetD spec "burninfrac" .nil with
            | .nil => pyStrOf (.float (mkRat 1 10))
            | v => pyStrOf v),
          "--out-tree", args.outTree, "--out-stats", args.outStats] ++
          seedSuffix args.seed]
    else .error (.exit 1 ("[error] unsupported method: " ++ m))
  | v => .error (.exit 1 ("[error] unsupported method: " ++ pyStrOf v))

/-- Stages of `main` before any subprocess runs: spec loading, argument
coercions, the base stats payload, and the backend command list, in source
order. -/
def dispatchPlan (env : DEnv) (args : DArgs) :
    Except VErr (List (List String) × List (String × YVal)) :=
  load_tree_spec env.cfgRaw args.config args.treeName >>= fun ct =>
  (match mapGetD ct.1 "data" (.map []) with
   | .map dm => .ok dm
   | _ => .error (.crash "AttributeError: data block is not a dict")) >>= fun dataBlock =>
  (match pyOr (mapGetD dataBlock "datatype" .nil) (.str "") with
   | .str s => .ok (pyLower s)
   | _ => .error (.crash "AttributeError: datatype is not a str")) >>= fun datatype =>
  (match mapLookup ct.2 "method" with
   | some v => .ok v
   | none => .error (.crash "KeyError: method")) >>= fun methodV =>
  starter_path_or_random ((mapLookup ct.2 "starter").getD (.str "random")) >>=
    fun starterArg =>
  dispatchCmds env args ct.2 dataBlock datatype methodV (mapGetD ct.2 "model" .nil)
    starterArg >>= fun cmds =>
  .ok (cmds, baseStats args methodV datatype (mapGetD ct.2 "model" .nil)
    ((mapLookup ct.2 "starter").getD (.str "random")))

/-- The try-block: run the backend commands in order; a failing command ends
the Dispatcher with that command's exit code (`sys.exit(e.returncode)`). -/
def runCmds (env : DEnv) : List (List String) → Except VErr Unit
  | [] => .ok ()
  | c :: rest =>
    match env.runResult c with
    | some code => .error (.exit code "")
    | none => runCmds env rest

/-- `main`: the final value is the process exit code together with the list
of stats files the Dispatcher itself writes (`maybe_write_minimal_stats`). -/
def dispatcher_main (env : DEnv) (args : DArgs) :
    Except VErr (Int × List (String × List (String × YVal))) :=
  dispatchPlan env args >>= fun pb =>
  runCmds env pb.1 >>= fun _ =>
  let stats := mapSet (mapSet pb.2 "elapsed_sec" (.float (pyRound3 env.elapsed)))
    "out_tree" (.str args.outTree)
  .ok (0, if env.statsExists then [] else [(args.outStats, stats)])

theorem runCmds_ok (env : DEnv) :
    ∀ cmds : List (List String), (∀ c ∈ cmds, env.runResult c = none) →
      runCmds env cmds = .ok () := by
  intro cmds
  induction cmds with
  | nil => intro _; rfl
  | cons c rest ih =>
    intro h
    simp only [runCmds]
    rw [h c (List.mem_cons_self _ _)]
    exact ih (fun c' hc' => h c' (List.mem_cons_of_mem _ hc'))

theorem runCmds_fail (env : DEnv) :
    ∀ (pre : List (List String)) (c : List String) (post : List (List String)) (code : Int),
      (∀ c' ∈ pre, env.runResult c' = none) → env.runResult c = some code →
      runCmds env (pre ++ c :: post) = .error (.exit code "") := by
  intro pre
  induction pre with
  | nil =>
    intro c post code _ hf
    simp only [List.nil_append, runCmds]
    rw [hf]
  | cons a pre ih =>
    intro c post code hp hf
    simp only [List.cons_append, runCmds]
    rw [hp a (List.mem_cons_self _ _)]
    exact ih c post code (fun c' hc' => hp c' (List.mem_cons_of_mem _ hc')) hf

/-- The planning stage always produces the five-key base stats payload. -/
theorem dispatchPlan_base (env : DEnv) (args : DArgs) (cmds : List (List String))
    (base : List (String × YVal))
    (h : dispatchPlan env args = .ok (cmds, base)) :
    ∃ mv dtS moV stV, base = [("tree", .str args.treeName), ("method", mv),
      ("datatype", .str dtS), ("model", moV), ("starter", stV)] := by
  rw [dispatchPlan, except_bind_ok] at h
  obtain ⟨ct, h1, h⟩ := h
  rw [except_bind_ok] at h
  obtain ⟨dataBlock, h2, h⟩ := h
  rw [except_bind_ok] at h
  obtain ⟨datatype, h3, h⟩ := h
  rw [except_bind_ok] at h
  obtain ⟨methodV, h4, h⟩ := h
  rw [except_bind_ok] at h
  obtain ⟨starterArg, h5, h⟩ := h
  rw [except_bind_ok] at h
  obtain ⟨cmds0, h6, h⟩ := h
  have hb := congrArg Prod.snd (Except.ok.inj h)
  dsimp only at hb
  exact ⟨methodV, datatype, mapGetD ct.2 "model" .nil,
    (match (mapLookup ct.2 "starter").getD (.str "random") with
     | .str s => YVal.str s | _ => .nil), hb.symm⟩

/-- C4: when every backend command succeeds and the stats path does not
exist afterwards, the Dispatcher exits 0 and writes exactly one stats record
at the stats path, containing the tree name, method, datatype, model,
starter, rounded elapsed seconds, and the tree output path. -/
theorem c4_fallback_stats (env : DEnv) (args : DArgs) (cmds : List (List String))
    (base : List (String × YVal))
    (hplan : dispatchPlan env args = .ok (cmds, base))
    (hok : ∀ c ∈ cmds, env.runResult c = none)
    (hne : env.statsExists = false) :
    dispatcher_main env args = .ok (0,
      [(args.outStats, mapSet (mapSet base "elapsed_sec" (.float (pyRound3 env.elapsed)))
        "out_tree" (.str args.outTree))]) ∧
    mapLookup (mapSet (mapSet base "elapsed_sec" (.float (pyRound3 env.elapsed)))
      "out_tree" (.str args.outTree)) "tree" = some (.str args.treeName) ∧
    (mapLookup (mapSet (mapSet base "elapsed_sec" (.float (pyRound3 env.elapsed)))
      "out_tree" (.str args.outTree)) "method").isSome = true ∧
    (mapLookup (mapSet (mapSet base "elapsed_sec" (.float (pyRound3 env.elapsed)))
      "out_tree" (.str args.outTree)) "datatype").isSome = true ∧
    (mapLookup (mapSet (mapSet base "elapsed_sec" (.float (pyRound3 env.elapsed)))
      "out_tree" (.str args.outTree)) "model").isSome = true ∧
    (mapLookup (mapSet (mapSet base "elapsed_sec" (.float (pyRound3 env.elapsed)))
      "out_tree" (.str args.outTree)) "starter").isSome = true ∧
    mapLookup (mapSet (mapSet base "elapsed_sec" (.float (pyRound3 env.elapsed)))
      "out_tree" (.str args.outTree)) "elapsed_sec" =
      some (.float (pyRound3 env.elapsed)) ∧
    mapLookup (mapSet (mapSet base "elapsed_sec" (.float (pyRound3 env.elapsed)))
      "out_tree" (.str args.outTree)) "out_tree" = some (.str args.outTree) := by
  obtain ⟨mv, dtS, moV, stV, hb⟩ := dispatchPlan_base env args cmds base hplan
  refine ⟨?_, ?_, ?_, ?_, ?_, ?_, ?_, ?_⟩
  · rw [dispatcher_main, hplan, except_ok_bind]
    dsimp only
    rw [runCmds_ok env cmds hok, except_ok_bind]
    rw [if_neg (show ¬ env.statsExists = true by simp [hne])]
  · rw [mapSet_lookup_ne _ _ _ _ (by decide), mapSet_lookup_ne _ _ _ _ (by decide), hb]
    rfl
  · rw [mapSet_lookup_ne _ _ _ _ (by decide), mapSet_lookup_ne _ _ _ _ (by decide), hb]
    rfl
  · rw [mapSet_lookup_ne _ _ _ _ (by decide), mapSet_lookup_ne _ _ _ _ (by decide), hb]
    rfl
  · rw [mapSet_lookup_ne _ _ _ _ (by decide), mapSet_lookup_ne _ _ _ _ (by decide), hb]
    rfl
  · rw [mapSet_lookup_ne _ _ _ _ (by decide), mapSet_lookup_ne _ _ _ _ (by decide), hb]
    rfl
  · rw [mapSet_lookup_ne _ _ _ _ (by decide), mapSet_lookup_self]
  · rw [mapSet_lookup_self]

/-- The stats files a Dispatcher run writes (none on the failure path). -/
def dWrites (r : Except VErr (Int × List (String × List (String × YVal)))) :
    List (String × List (String × YVal)) :=
  match r with
  | .ok (_, w) => w
  | .error _ => []

/-- C5: a failing backend command (after any successful ones) ends the
Dispatcher with that command's exit code; no successful result — and hence
no fallback stats write — is produced. -/
theorem c5_backend_failure (env : DEnv) (args : DArgs) (cmds : List (List String))
    (base : List (String × YVal)) (pre post : List (List String)) (c : List String)
    (code : Int)
    (hplan : dispatchPlan env args = .ok (cmds, base))
    (hsplit : cmds = pre ++ c :: post)
    (hpre : ∀ c' ∈ pre, env.runResult c' = none)
    (hfail : env.runResult c = some code) :
    dispatcher_main env args = .error (.exit code "") ∧
    dWrites (dispatcher_main env args) = [] := by
  have hmain : dispatcher_main env args = .error (.exit code "") := by
    rw [dispatcher_main, hplan, except_ok_bind]
    dsimp only
    rw [hsplit, runCmds_fail env pre c post code hpre hfail]
    rfl
  exact ⟨hmain, by rw [hmain]; rfl⟩

/-- Witness for C4: an NJ dispatch whose backend succeeds but leaves no
stats file makes the Dispatcher write the fallback stats record. -/
theorem c4_witness :
    dispatcher_main
      { cfgRaw := .map [("data", .map [("datatype", .str "dna")]),
          ("trees", .list [.map [("name", .str "t1"), ("method", .str "NJ"),
            ("model", .str "JC69")]])],
        runResult := fun _ => none, statsExists := false,
        elapsed := mkRat 2 1, scriptDir := "scripts" }
      { config := "config.yaml", treeName := "t1", fasta := "a.fa",
        outTree := "results/t1/tree.nwk", outStats := "results/t1/stats.json",
        seed := none } = .ok (0,
      [("results/t1/stats.json", mapSet (mapSet
        [("tree", .str "t1"), ("method", .str "NJ"), ("datatype", .str "dna"),
         ("model", .str "JC69"), ("starter", .str "random")]
        "elapsed_sec" (.float (pyRound3 (mkRat 2 1))))
        "out_tree" (.str "results/t1/tree.nwk"))]) ∧
    mapLookup (mapSet (mapSet
        [("tree", .str "t1"), ("method", .str "NJ"), ("datatype", .str "dna"),
         ("model", .str "JC69"), ("starter", .str "random")]
        "elapsed_sec" (.float (pyRound3 (mkRat 2 1))))
        "out_tree" (.str "results/t1/tree.nwk")) "tree" = some (.str "t1") ∧
    (mapLookup (mapSet (mapSet
        [("tree", .str "t1"), ("method", .str "NJ"), ("datatype", .str "dna"),
         ("model", .str "JC69"), ("starter", .str "random")]
        "elapsed_sec" (.float (pyRound3 (mkRat 2 1))))
        "out_tree" (.str "results/t1/tree.nwk")) "method").isSome = true ∧
    (mapLookup (mapSet (mapSet
        [("tree", .str "t1"), ("method", .str "NJ"), ("datatype", .str "dna"),
         ("model", .str "JC69"), ("starter", .str "random")]
        "elapsed_sec" (.float (pyRound3 (mkRat 2 1))))
        "out_tree" (.str "results/t1/tree.nwk")) "datatype").isSome = true ∧
    (mapLookup (mapSet (mapSet
        [("tree", .str "t1"), ("method", .str "NJ"), ("datatype", .str "dna"),
         ("model", .str "JC69"), ("starter", .str "random")]
        "elapsed_sec" (.float (pyRound3 (mkRat 2 1))))
        "out_tree" (.str "results/t1/tree.nwk")) "model").isSome = true ∧
    (mapLookup (mapSet (mapSet
        [("tree", .str "t1"), ("method", .str "NJ"), ("datatype", .str "dna"),
         ("model", .str "JC69"), ("starter", .str "random")]
        "elapsed_sec" (.float (pyRound3 (mkRat 2 1))))
        "out_tree" (.str "results/t1/tree.nwk")) "starter").isSome = true ∧
    mapLookup (mapSet (mapSet
        [("tree", .str "t1"), ("method", .str "NJ"), ("datatype", .str "dna"),
         ("model", .str "JC69"), ("starter", .str "random")]
        "elapsed_sec" (.float (pyRound3 (mkRat 2 1))))
        "out_tree" (.str "results/t1/tree.nwk")) "elapsed_sec" =
      some (.float (pyRound3 (mkRat 2 1))) ∧
    mapLookup (mapSet (mapSet
        [("tree", .str "t1"), ("method", .str "NJ"), ("datatype", .str "dna"),
         ("model", .str "JC69"), ("starter", .str "random")]
        "elapsed_sec" (.float (pyRound3 (mkRat 2 1))))
        "out_tree" (.str "results/t1/tree.nwk")) "out_tree" =
      some (.str "results/t1/tree.nwk") :=
  c4_fallback_stats
    { cfgRaw := .map [("data", .map [("datatype", .str "dna")]),
        ("trees", .list [.map [("name", .str "t1"), ("method", .str "NJ"),
          ("model", .str "JC69")]])],
      runResult := fun _ => none, statsExists := false,
      elapsed := mkRat 2 1, scriptDir := "scripts" }
    { config := "config.yaml", treeName := "t1", fasta := "a.fa",
      outTree := "results/t1/tree.nwk", outStats := "results/t1/stats.json",
      seed := none }
    [["Rscript", "scripts/build_dist_tree.R", "--fasta", "a.fa", "--datatype", "dna",
      "--model", "JC69", "--method", "NJ", "--out-tree", "results/t1/tree.nwk",
      "--out-stats", "results/t1/stats.json"]]
    [("tree", .str "t1"), ("method", .str "NJ"), ("datatype", .str "dna"),
     ("model", .str "JC69"), ("starter", .str "random")]
    rfl (fun _ _ => rfl) rfl

/-- Witness for C5: a backend that exits 7 makes the Dispatcher end with
exit code 7 and write nothing. -/
theorem c5_witness :
    dispatcher_main
      { cfgRaw := .map [("data", .map [("datatype", .str "dna")]),
          ("trees", .list [.map [("name", .str "t1"), ("method", .str "NJ"),
            ("model", .str "JC69")]])],
        runResult := fun _ => some 7, statsExists := false,
        elapsed := mkRat 2 1, scriptDir := "scripts" }
      { config := "config.yaml", treeName := "t1", fasta := "a.fa",
        outTree := "results/t1/tree.nwk", outStats := "results/t1/stats.json",
        seed := none } = .error (.exit 7 "") ∧
    dWrites (dispatcher_main
      { cfgRaw := .map [("data", .map [("datatype", .str "dna")]),
          ("trees", .list [.map [("name", .str "t1"), ("method", .str "NJ"),
            ("model", .str "JC69")]])],
        runResult := fun _ => some 7, statsExists := false,
        elapsed := mkRat 2 1, scriptDir := "scripts" }
      { config := "config.yaml", treeName := "t1", fasta := "a.fa",
        outTree := "results/t1/tree.nwk", outStats := "results/t1/stats.json",
        seed := none }) = [] :=
  c5_backend_failure
    { cfgRaw := .map [("data", .map [("datatype", .str "dna")]),
        ("trees", .list [.map [("name", .str "t1"), ("method", .str "NJ"),
          ("model", .str "JC69")]])],
      runResult := fun _ => some 7, statsExists := false,
      elapsed := mkRat 2 1, scriptDir := "scripts" }
    { config := "config.yaml", treeName := "t1", fasta := "a.fa",
      outTree := "results/t1/tree.nwk", outStats := "results/t1/stats.json",
      seed := none }
    [["Rscript", "scripts/build_dist_tree.R", "--fasta", "a.fa", "--datatype", "dna",
      "--model", "JC69", "--method", "NJ", "--out-tree", "results/t1/tree.nwk",
      "--out-stats", "results/t1/stats.json"]]
    [("tree", .str "t1"), ("method", .str "NJ"), ("datatype", .str "dna"),
     ("model", .str "JC69"), ("starter", .str "random")]
    []
    []
    ["Rscript", "scripts/build_dist_tree.R", "--fasta", "a.fa", "--datatype", "dna",
     "--model", "JC69", "--method", "NJ", "--out-tree", "results/t1/tree.nwk",
     "--out-stats", "results/t1/stats.json"]
    7 rfl rfl (fun _ hc => absurd hc (List.not_mem_nil _)) rfl
